import Mathlib

set_option autoImplicit false

/-!
# Verification of the KKG-Display-Check pricing engine

A shallow embedding of the catalog-driven rule-resolution and pricing engine of
the KKG-Display-Check repository (`src/app/pricing.py`, `src/app/catalog.py`,
and the engine inlined in `src/pages/Display.py`), together with theorems
settling the specification's claims about it.

Python's dynamically typed values are embedded as the `PyVal` type.  Python
floats are modelled as exact rationals (every arithmetic step the claims talk
about is a single source expression, so exact arithmetic preserves the stated
equalities).  Code that can raise is embedded in the `Except String` monad with
one error value per Python exception site; code the source wraps in
`try/except` is totalised exactly where the source catches.
-/

mutual

/-- A Python value as it occurs in this program: `None`, booleans, ints,
floats (modelled as exact rationals), strings, lists, and string-keyed dicts
(every dict in this program comes from parsed JSON or a literal, hence has
string keys; assigning a non-string key is modelled as an error). -/
inductive PyVal : Type where
  | none : PyVal
  | bool (b : Bool) : PyVal
  | int (n : Int) : PyVal
  | float (q : ℚ) : PyVal
  | str (s : String) : PyVal
  | list (xs : PyList) : PyVal
  | dict (kvs : PyDict) : PyVal

/-- Spine of a Python list of `PyVal`s. -/
inductive PyList : Type where
  | nil : PyList
  | cons (x : PyVal) (xs : PyList) : PyList

/-- Spine of a string-keyed Python dict, in insertion order. -/
inductive PyDict : Type where
  | nil : PyDict
  | cons (k : String) (v : PyVal) (rest : PyDict) : PyDict

end

/-- View a `PyList` spine as a Lean list. -/
def PyList.toList : PyList → List PyVal
  | .nil => []
  | .cons x xs => x :: xs.toList

/-- Build a `PyList` spine from a Lean list. -/
def PyList.ofList : List PyVal → PyList
  | [] => .nil
  | x :: xs => .cons x (PyList.ofList xs)

/-- Map over the elements of a `PyList`. -/
def PyList.map (f : PyVal → PyVal) : PyList → PyList
  | .nil => .nil
  | .cons x xs => .cons (f x) (xs.map f)

/-- View a `PyDict` spine as a Lean association list. -/
def PyDict.entries : PyDict → List (String × PyVal)
  | .nil => []
  | .cons k v r => (k, v) :: r.entries

/-- Build a `PyDict` spine from a Lean association list. -/
def PyDict.ofList : List (String × PyVal) → PyDict
  | [] => .nil
  | (k, v) :: r => .cons k v (PyDict.ofList r)

/-- Python list literal. -/
def pyList (xs : List PyVal) : PyVal := .list (PyList.ofList xs)

/-- Python dict literal. -/
def pyDict (kvs : List (String × PyVal)) : PyVal := .dict (PyDict.ofList kvs)

/-- Number of entries of a dict. -/
def PyDict.length : PyDict → Nat
  | .nil => 0
  | .cons _ _ r => r.length + 1

/-- First-match lookup (Python dicts have unique keys). -/
def PyDict.find? : PyDict → String → Option PyVal
  | .nil, _ => Option.none
  | .cons l v r, k => if l == k then some v else r.find? k

/-- Python `k in d` for a string key. -/
def PyDict.hasKey (d : PyDict) (k : String) : Bool := (d.find? k).isSome

/-- Remove every entry with key `k`; models `dict.pop(k, None)` and the
test-harness operation of deleting a rule from `catalog.rules`. -/
def PyDict.erase : PyDict → String → PyDict
  | .nil, _ => .nil
  | .cons l v r, k => if l == k then r.erase k else .cons l v (r.erase k)

/-- Python dict item assignment `d[k] = v`: overwrites the existing entry in
place (Python preserves insertion order), else appends a new entry. -/
def PyDict.set : PyDict → String → PyVal → PyDict
  | .nil, k, v => .cons k v .nil
  | .cons l w r, k, v => if l == k then .cons l v r else .cons l w (r.set k v)

/-- The keys of a dict, in order, as Python values (dict iteration). -/
def PyDict.keyList : PyDict → List PyVal
  | .nil => []
  | .cons k _ r => PyVal.str k :: r.keyList

/-- Python truthiness. -/
def truthy : PyVal → Bool
  | .none => false
  | .bool b => b
  | .int n => n != 0
  | .float q => q != 0
  | .str s => s != ""
  | .list .nil => false
  | .list _ => true
  | .dict .nil => false
  | .dict _ => true

/-- Python `a or b` (value-returning, short-circuit). -/
def pyOr (a b : PyVal) : PyVal := if truthy a then a else b

mutual

/-- Python `==` on the values this program compares: `None` equals only
`None`; booleans, ints and floats form one numeric tower; strings compare by
value; lists elementwise; dicts by key set and values. -/
def pyEq : PyVal → PyVal → Bool
  | .none, .none => true
  | .bool a, .bool b => a == b
  | .bool a, .int n => (if a then (1 : Int) else 0) == n
  | .bool a, .float q => (if a then (1 : ℚ) else 0) == q
  | .int n, .bool b => n == (if b then (1 : Int) else 0)
  | .int n, .int m => n == m
  | .int n, .float q => ((n : ℚ)) == q
  | .float q, .bool b => q == (if b then (1 : ℚ) else 0)
  | .float q, .int n => q == ((n : ℚ))
  | .float p, .float q => p == q
  | .str s, .str t => s == t
  | .list xs, .list ys => pyEqL xs ys
  | .dict xs, .dict ys => xs.length == ys.length && pyEqSubD xs ys
  | _, _ => false

/-- Elementwise `==` of two Python lists. -/
def pyEqL : PyList → PyList → Bool
  | .nil, .nil => true
  | .cons x xs, .cons y ys => pyEq x y && pyEqL xs ys
  | _, _ => false

/-- Every entry of the first dict is matched by key in the second. -/
def pyEqSubD : PyDict → PyDict → Bool
  | .nil, _ => true
  | .cons k v r, ys => pyEqKeyD k v ys && pyEqSubD r ys

/-- The first entry with key `k` (if any) has a `==`-equal value. -/
def pyEqKeyD (k : String) (v : PyVal) : PyDict → Bool
  | .nil => false
  | .cons l w r => if k == l then pyEq v w else pyEqKeyD k v r

end

/-- Python `x in xs` for a list receiver (membership via `==`). -/
def pyElemL (x : PyVal) : PyList → Bool
  | .nil => false
  | .cons y ys => pyEq x y || pyElemL x ys

/-- `cs` is a prefix of the second list. -/
def chPrefix : List Char → List Char → Bool
  | [], _ => true
  | _ :: _, [] => false
  | c :: cs, d :: ds => c == d && chPrefix cs ds

/-- `n` occurs as a contiguous run inside the second list. -/
def chSub (n : List Char) : List Char → Bool
  | [] => n.isEmpty
  | d :: ds => chPrefix n (d :: ds) || chSub n ds

/-- Python `k in v` for a string constant `k`: key test on dicts, element
test on lists, substring test on strings; raises otherwise. -/
def pyInStr (k : String) (v : PyVal) : Except String Bool :=
  match v with
  | .dict kvs => .ok (kvs.hasKey k)
  | .list xs => .ok (pyElemL (.str k) xs)
  | .str s => .ok (chSub k.toList s.toList)
  | _ => .error "TypeError: argument of in is not a container"

/-- Python `key in d` for a dict receiver and an arbitrary key value: an
unhashable key raises; a hashable non-string key is never among this
program's string keys. -/
def pyInDict (key : PyVal) (d : PyVal) : Except String Bool :=
  match d with
  | .dict kvs =>
      match key with
      | .str s => .ok (kvs.hasKey s)
      | .list _ => .error "TypeError: unhashable type: list"
      | .dict _ => .error "TypeError: unhashable type: dict"
      | _ => .ok false
  | _ => .error "TypeError: argument of in is not a container"

/-- Python attribute call `v.get(k, default)` with a string key: only dicts
have `.get`. -/
def pyGet (v : PyVal) (k : String) (default : PyVal) : Except String PyVal :=
  match v with
  | .dict kvs => .ok ((kvs.find? k).getD default)
  | _ => .error "AttributeError: no attribute get"

/-- `v.get(key, default)` where the key is an arbitrary Python value: a
non-dict receiver raises `AttributeError`, an unhashable key raises
`TypeError`, and a hashable non-string key is simply not found among this
program's string keys. -/
def pyGetKey (v : PyVal) (key : PyVal) (default : PyVal) : Except String PyVal :=
  match v with
  | .dict kvs =>
      match key with
      | .str s => .ok ((kvs.find? s).getD default)
      | .list _ => .error "TypeError: unhashable type: list"
      | .dict _ => .error "TypeError: unhashable type: dict"
      | _ => .ok default
  | _ => .error "AttributeError: no attribute get"

/-- Python subscription `v[k]` with a string key (dict indexing). -/
def pySubscr (v : PyVal) (k : String) : Except String PyVal :=
  match v with
  | .dict kvs =>
      match kvs.find? k with
      | some w => .ok w
      | _ => .error "KeyError"
  | _ => .error "TypeError: not subscriptable by str"

/-- Python iteration `for x in v`: lists yield their elements, strings yield
1-character strings, dicts yield their keys; other values raise. -/
def pyIter (v : PyVal) : Except String (List PyVal) :=
  match v with
  | .list xs => .ok xs.toList
  | .str s => .ok (s.data.map fun c => PyVal.str (String.mk [c]))
  | .dict kvs => .ok kvs.keyList
  | _ => .error "TypeError: not iterable"

/-- Value of a nonempty all-digit character run. -/
def digitsVal (cs : List Char) : Option Nat :=
  if cs.isEmpty then Option.none
  else if cs.all Char.isDigit then
    some (cs.foldl (fun a c => a * 10 + (c.toNat - 48)) 0)
  else Option.none

/-- Strip leading and trailing whitespace (Python `str.strip()` on the ASCII
whitespace occurring in this program's data). -/
def trimChars (cs : List Char) : List Char :=
  ((cs.dropWhile Char.isWhitespace).reverse.dropWhile Char.isWhitespace).reverse

/-- Optionally signed decimal integer (Python `int(str)` syntax; underscores
and other exotica never occur in this program's data). -/
def parseIntChars (cs : List Char) : Option Int :=
  match cs with
  | '-' :: rest => (digitsVal rest).map (fun n => -((n : Int)))
  | '+' :: rest => (digitsVal rest).map (fun n => ((n : Int)))
  | _ => (digitsVal cs).map (fun n => ((n : Int)))

/-- Split a character run at every occurrence of a separator. -/
def splitOnChar (sep : Char) : List Char → List (List Char)
  | [] => [[]]
  | c :: rest =>
      let r := splitOnChar sep rest
      if c == sep then [] :: r
      else
        match r with
        | h :: t => (c :: h) :: t
        | [] => [[c]]

/-- Unsigned decimal mantissa: `"12"`, `"12.5"`, `"12."` or `".5"`. -/
def parseUFrac (cs : List Char) : Option ℚ :=
  match splitOnChar '.' cs with
  | [a] => (digitsVal a).map (fun n => ((n : ℚ)))
  | [a, b] =>
      if a.isEmpty && b.isEmpty then Option.none
      else
        let av : Option Nat := if a.isEmpty then some 0 else digitsVal a
        let bv : Option Nat := if b.isEmpty then some 0 else digitsVal b
        match av, bv with
        | some n, some m => some ((n : ℚ) + (m : ℚ) / (10 : ℚ) ^ b.length)
        | _, _ => Option.none
  | _ => Option.none

/-- Mantissa with optional exponent part. -/
def parseUFloat (cs : List Char) : Option ℚ :=
  match splitOnChar 'e' cs with
  | [m] => parseUFrac m
  | [m, e] =>
      match parseUFrac m, parseIntChars e with
      | some q, some z => some (q * (10 : ℚ) ^ z)
      | _, _ => Option.none
  | _ => Option.none

/-- Python `float(string)` on finite decimal notation (the special spellings
`inf`/`nan` never occur in this program's data). -/
def parseFloat? (s : String) : Option ℚ :=
  let t := (trimChars s.data).map (fun c => if c == 'E' then 'e' else c)
  match t with
  | '-' :: rest => (parseUFloat rest).map (fun q => -q)
  | '+' :: rest => parseUFloat rest
  | _ => parseUFloat t

/-- Truncation of a rational toward zero, as Python `int()` of a float. -/
def ratTrunc (q : ℚ) : Int := if q < 0 then -(Int.floor (-q)) else Int.floor q

/-- Python `int(v)`: bools and ints pass through, floats truncate toward
zero, strings parse as (optionally signed) decimal integers, everything else
raises. -/
def pyInt (v : PyVal) : Except String Int :=
  match v with
  | .bool b => .ok (if b then 1 else 0)
  | .int n => .ok n
  | .float q => .ok (ratTrunc q)
  | .str s =>
      match parseIntChars (trimChars s.data) with
      | some n => .ok n
      | _ => .error "ValueError: invalid literal for int()"
  | _ => .error "TypeError: int() argument"

/-- Python `float(v)`. -/
def pyFloat (v : PyVal) : Except String ℚ :=
  match v with
  | .bool b => .ok (if b then 1 else 0)
  | .int n => .ok ((n : ℚ))
  | .float q => .ok q
  | .str s =>
      match parseFloat? s with
      | some q => .ok q
      | _ => .error "ValueError: could not convert string to float"
  | _ => .error "TypeError: float() argument"

/-- Exact decimal rendering of the rationals that arise as Python floats
(reduced denominator dividing a power of ten; binary floats always do).
Other rationals fall back to a fraction spelling, which no claim exercises. -/
def ratStr (q : ℚ) : String :=
  match (List.range 65).find? (fun k => (10 : Int) ^ k % ((q.den : Int)) == 0) with
  | some k =>
      let scaled : Int := q.num * ((10 : Int) ^ k / ((q.den : Int)))
      let a := scaled.natAbs / 10 ^ k
      let b := scaled.natAbs % 10 ^ k
      let sgn := if q.num < 0 then "-" else ""
      if k == 0 then sgn ++ toString a ++ ".0"
      else
        let bs := toString b
        let pad := String.mk (List.replicate (k - bs.length) '0')
        sgn ++ toString a ++ "." ++ pad ++ bs
  | _ => toString q.num ++ "/" ++ toString q.den

mutual

/-- Python `repr(v)` (enough of it for `str()` of containers). -/
def pyRepr : PyVal → String
  | .none => "None"
  | .bool b => if b then "True" else "False"
  | .int n => toString n
  | .float q => ratStr q
  | .str s => "\x27" ++ s ++ "\x27"
  | .list xs => "[" ++ pyReprL xs ++ "]"
  | .dict kvs => "\x7b" ++ pyReprD kvs ++ "\x7d"

/-- Comma-separated reprs of list elements. -/
def pyReprL : PyList → String
  | .nil => ""
  | .cons x .nil => pyRepr x
  | .cons x xs => pyRepr x ++ ", " ++ pyReprL xs

/-- Comma-separated reprs of dict entries. -/
def pyReprD : PyDict → String
  | .nil => ""
  | .cons k v .nil => "\x27" ++ k ++ "\x27: " ++ pyRepr v
  | .cons k v r => "\x27" ++ k ++ "\x27: " ++ pyRepr v ++ ", " ++ pyReprD r

end

/-- Python `str(v)`. -/
def pyStr : PyVal → String
  | .none => "None"
  | .bool b => if b then "True" else "False"
  | .int n => toString n
  | .float q => ratStr q
  | .str s => s
  | .list xs => "[" ++ pyReprL xs ++ "]"
  | .dict kvs => "\x7b" ++ pyReprD kvs ++ "\x7d"

/-- `v is not None`. -/
def isNotNone : PyVal → Bool
  | .none => false
  | _ => true

/-! ## Embedding of `src/app/pricing.py` -/

/-- The `try` body of `parts_value(catalog, part_key)` (`src/app/pricing.py`
lines 6-10, and the identical `_parts_value` in `src/pages/Display.py`):
`float(catalog.get("parts", {}).get(part_key, {}).get("base_value", 0) or 0)`.
The key is an arbitrary value because `Display.py` passes resolved parts. -/
def partsValueAttempt (catalog : PyVal) (part_key : PyVal) : Except String ℚ := do
  let parts ← pyGet catalog "parts" (pyDict [])
  let entry ← pyGetKey parts part_key (pyDict [])
  let bv ← pyGet entry "base_value" (.int 0)
  pyFloat (pyOr bv (.int 0))

/-- The `try/except` wrapper of `parts_value`: any exception yields `0.0`. -/
def parts_value (catalog : PyVal) (part_key : PyVal) : ℚ :=
  match partsValueAttempt catalog part_key with
  | .ok q => q
  | .error _ => 0

/-- One iteration of the `unit_factor` band loop
(`src/app/pricing.py` lines 22-38). -/
def unit_factor_band (inclusive : Bool) (qty : Int) (uf : ℚ) (band : PyVal) :
    Except String ℚ := do
  let min_q ← pyInt (pyOr (← pyGet band "min_qty" (.int 0)) (.int 0))
  let max_q ← pyGet band "max_qty" .none
  let factor ← pyFloat (pyOr (← pyGet band "factor" (.float 1)) (.float 1))
  match max_q with
  | .none => pure (if qty ≥ min_q then factor else uf)
  | mq => do
      let max_q_i ← pyInt mq
      if inclusive then
        pure (if qty ≥ min_q && qty ≤ max_q_i then factor else uf)
      else
        pure (if qty ≥ min_q && qty < max_q_i then factor else uf)

/-- The `for band in tiers` loop of `unit_factor`, threading the factor. -/
def unit_factor_loop (inclusive : Bool) (qty : Int) :
    List PyVal → ℚ → Except String ℚ
  | [], uf => .ok uf
  | b :: bs, uf => do
      let uf2 ← unit_factor_band inclusive qty uf b
      unit_factor_loop inclusive qty bs uf2

/-- `unit_factor(policy, qty)` (`src/app/pricing.py` lines 13-40). -/
def unit_factor (policy : PyVal) (qty : Int) : Except String ℚ := do
  let tiers := pyOr (← pyGet policy "unit_tiers" (pyList [])) (pyList [])
  let inclusive := pyEq (← pyGet policy "tier_boundary" (.str "inclusive")) (.str "inclusive")
  let bands ← pyIter tiers
  unit_factor_loop inclusive qty bands 1

/-- Number of elements of a Python list spine. -/
def PyList.length : PyList → Nat
  | .nil => 0
  | .cons _ r => r.length + 1

/-- The shape test of `matrix_markup_pct`:
`isinstance(grid, list) and len(grid) == 3 and all(isinstance(r, list) and len(r) == 3 for r in grid)`. -/
def is3x3 : PyVal → Bool
  | .list rows =>
      rows.length == 3 &&
        (rows.toList.all fun r =>
          match r with
          | .list cols => cols.length == 3
          | _ => false)
  | _ => false

/-- Python list subscription `v[i]` (negative indices count from the end;
out of range raises `IndexError`). -/
def pyIndex (v : PyVal) (i : Int) : Except String PyVal :=
  match v with
  | .list xs =>
      let l := xs.toList
      let j := if i < 0 then i + l.length else i
      if 0 ≤ j ∧ j < l.length then .ok (l.getD j.toNat .none)
      else .error "IndexError: list index out of range"
  | _ => .error "TypeError: not subscriptable by int"

/-- `matrix_markup_pct(policy, rc)` (`src/app/pricing.py` lines 43-52):
raises unless `policy.matrix_markups` is exactly a 3x3 list of lists, then
returns `float(grid[r][c])`. -/
def matrix_markup_pct (policy : PyVal) (rc : Int × Int) : Except String ℚ := do
  let grid ← pyGet policy "matrix_markups" .none
  if is3x3 grid then do
    let row ← pyIndex grid rc.1
    let cell ← pyIndex row rc.2
    pyFloat cell
  else
    throw "ValueError: Missing/invalid policy.matrix_markups (expected 3x3 list)."

/-- `int(form.get(ctrl, 0) or 0)` — the numeric form read shared by the
dividers and assembly-touches steps. -/
def readFormInt (form : PyVal) (ctrl : PyVal) : Except String Int := do
  pyInt (pyOr (← pyGetKey form ctrl (.int 0)) (.int 0))

/-- The six fixed rule kinds of `resolve_parts_per_unit`. -/
inductive RuleName : Type where
  | footprint_base
  | header
  | dividers
  | shipper
  | assembly_touches
  | printed_inside
deriving DecidableEq

/-- The `catalog.rules` key of each rule kind. -/
def ruleKey : RuleName → String
  | .footprint_base => "resolve_footprint_base"
  | .header => "resolve_header"
  | .dividers => "resolve_dividers"
  | .shipper => "resolve_shipper"
  | .assembly_touches => "resolve_assembly_touches"
  | .printed_inside => "resolve_printed_inside"

/-- `"key" in rules` followed by `r = rules["key"]`; `none` when the rule
is absent. -/
def getRule (rules : PyVal) (key : String) : Except String (Option PyVal) := do
  if (← pyInStr key rules) then do
    let r ← pySubscr rules key
    pure (some r)
  else
    pure Option.none

/-- Footprint-base step body (`src/app/pricing.py` lines 70-74). -/
def fpBaseBody (r : PyVal) (fp_key : PyVal) : Except String (List (PyVal × Int)) := do
  let base_part ← pyGetKey (pyOr (← pyGet r "map" (pyDict [])) (pyDict [])) fp_key .none
  if truthy base_part then pure [(base_part, 1)] else pure []

/-- Header step body (`src/app/pricing.py` lines 77-85). -/
def headerBody (r form : PyVal) (width_in : PyVal) : Except String (List (PyVal × Int)) := do
  let part0 ← pyGet r "else" .none
  let fv ← pyGetKey form (← pyGet r "when_control" .none) .none
  let wv ← pyGet r "when_value" .none
  let part ←
    if pyEq fv wv then do
      let mod ← pyGet r "match_on_dim" .none
      if pyEq mod (.str "width_in") && isNotNone width_in then do
        let els ← pyGet r "else" .none
        pyGetKey (pyOr (← pyGet r "map" (pyDict [])) (pyDict [])) (.str (pyStr width_in)) els
      else pure part0
    else pure part0
  if truthy part then pure [(part, 1)] else pure []

/-- Dividers step body (`src/app/pricing.py` lines 88-95). -/
def dividersBody (r form : PyVal) (depth_in : PyVal) : Except String (List (PyVal × Int)) := do
  let qty_ctrl ← pyGet r "quantity_control" .none
  let dqty ← readFormInt form qty_ctrl
  if dqty > 0 then do
    let mod ← pyGet r "match_on_dim" .none
    if pyEq mod (.str "depth_in") && isNotNone depth_in then do
      let els ← pyGet r "else" .none
      let part ← pyGetKey (pyOr (← pyGet r "map" (pyDict [])) (pyDict [])) (.str (pyStr depth_in)) els
      if truthy part then pure [(part, dqty)] else pure []
    else pure []
  else pure []

/-- Shipper step body (`src/app/pricing.py` lines 98-103). -/
def shipperBody (r form : PyVal) (fp_key : PyVal) : Except String (List (PyVal × Int)) := do
  let fv ← pyGetKey form (← pyGet r "when_control" .none) .none
  let wv ← pyGet r "when_value" .none
  if pyEq fv wv then do
    let els ← pyGet r "else" .none
    let part ← pyGetKey (pyOr (← pyGet r "map" (pyDict [])) (pyDict [])) fp_key els
    if truthy part then pure [(part, 1)] else pure []
  else pure []

/-- Assembly-touches step body (`src/app/pricing.py` lines 106-114). -/
def assemblyBody (r form : PyVal) : Except String (List (PyVal × Int)) := do
  let fv ← pyGetKey form (← pyGet r "when_control" .none) .none
  let wv ← pyGet r "when_value" .none
  if pyEq fv wv then do
    let tq_ctrl ← pyGet r "quantity_control" .none
    let tqty ← readFormInt form tq_ctrl
    let minq ← pyInt (pyOr (← pyGet r "min_quantity" (.int 1)) (.int 1))
    if tqty ≥ minq then do
      let part ← pyGet r "part" .none
      if truthy part then pure [(part, tqty)] else pure []
    else pure []
  else pure []

/-- Printed-inside step body (`src/app/pricing.py` lines 117-123). -/
def printedBody (r form : PyVal) : Except String (List (PyVal × Int)) := do
  let ctrl_id ← pyGet r "based_on_control" .none
  let selected ← pyGetKey form ctrl_id .none
  let part ← pyGetKey (pyOr (← pyGet r "map" (pyDict [])) (pyDict [])) selected .none
  if truthy part then pure [(part, 1)] else pure []

/-- One resolution step of `resolve_parts_per_unit`: the guard on the rule key
(plus, for the footprint base, the preceding truthiness test on `fp_key`,
short-circuited exactly as in `if fp_key and "resolve_footprint_base" in rules`)
followed by the step body. -/
def ruleStep (k : RuleName) (rules form : PyVal) (fp_key width_in depth_in : PyVal) :
    Except String (List (PyVal × Int)) :=
  match k with
  | .footprint_base =>
      if truthy fp_key then do
        match (← getRule rules "resolve_footprint_base") with
        | some r => fpBaseBody r fp_key
        | _ => pure []
      else pure []
  | .header => do
      match (← getRule rules "resolve_header") with
      | some r => headerBody r form width_in
      | _ => pure []
  | .dividers => do
      match (← getRule rules "resolve_dividers") with
      | some r => dividersBody r form depth_in
      | _ => pure []
  | .shipper => do
      match (← getRule rules "resolve_shipper") with
      | some r => shipperBody r form fp_key
      | _ => pure []
  | .assembly_touches => do
      match (← getRule rules "resolve_assembly_touches") with
      | some r => assemblyBody r form
      | _ => pure []
  | .printed_inside => do
      match (← getRule rules "resolve_printed_inside") with
      | some r => printedBody r form
      | _ => pure []

/-- The fixed order in which `resolve_parts_per_unit` runs its steps. -/
def ruleOrder : List RuleName :=
  [.footprint_base, .header, .dividers, .shipper, .assembly_touches, .printed_inside]

/-- Sequential execution of resolution steps, appending their contributions
in order (the source appends into one `resolved` list). -/
def goResolve (ks : List RuleName) (rules form fp_key width_in depth_in : PyVal) :
    Except String (List (PyVal × Int)) :=
  match ks with
  | [] => .ok []
  | k :: rest => do
      let s ← ruleStep k rules form fp_key width_in depth_in
      let t ← goResolve rest rules form fp_key width_in depth_in
      pure (s ++ t)

/-- `resolve_parts_per_unit(catalog, form, footprint_dims=...)`
(`src/app/pricing.py` lines 55-125). -/
def resolve_parts_per_unit (catalog form : PyVal) (footprint_dims : PyVal × PyVal) :
    Except String (List (PyVal × Int)) := do
  let rules := pyOr (← pyGet catalog "rules" (pyDict [])) (pyDict [])
  let fp_key ← pyGet form "footprint" .none
  goResolve ruleOrder rules form fp_key footprint_dims.1 footprint_dims.2

/-- The contribution of a single rule's step, with `rules` and `fp_key`
derived from the catalog and form exactly as in `resolve_parts_per_unit`. -/
def ruleContribution (k : RuleName) (catalog form : PyVal) (dims : PyVal × PyVal) :
    Except String (List (PyVal × Int)) := do
  let rules := pyOr (← pyGet catalog "rules" (pyDict [])) (pyDict [])
  let fp_key ← pyGet form "footprint" .none
  ruleStep k rules form fp_key dims.1 dims.2

/-! ## Embedding of `src/app/catalog.py` (and the `Display.py` variants) -/

/-- The `for c in controls` search of `find_control`. -/
def findControlLoop (control_id : String) : List PyVal → Except String PyVal
  | [] => .ok .none
  | c :: cs => do
      if pyEq (← pyGet c "id" .none) (.str control_id) then pure c
      else findControlLoop control_id cs

/-- `find_control(catalog, control_id)` (`src/app/catalog.py` lines 22-26);
returns `None` when no control matches. -/
def find_control (catalog : PyVal) (control_id : String) : Except String PyVal := do
  let cs ← pyIter (pyOr (← pyGet catalog "controls" (pyList [])) (pyList []))
  findControlLoop control_id cs

/-- The option scan of `footprint_dims`. -/
def fpOptLoop (footprint_key : PyVal) : List PyVal → Except String (PyVal × PyVal)
  | [] => .ok (.none, .none)
  | opt :: rest => do
      if pyEq (← pyGet opt "key" .none) footprint_key then do
        let dims := pyOr (← pyGet opt "dims" (pyDict [])) (pyDict [])
        pure (← pyGet dims "width_in" .none, ← pyGet dims "depth_in" .none)
      else fpOptLoop footprint_key rest

/-- `footprint_dims(catalog, footprint_key)` (`src/app/catalog.py` lines 29-39). -/
def footprint_dims (catalog : PyVal) (footprint_key : PyVal) :
    Except String (PyVal × PyVal) := do
  let fp ← find_control catalog "footprint"
  if truthy fp then do
    let opts ← pyIter (pyOr (← pyGet fp "options" (pyList [])) (pyList []))
    fpOptLoop footprint_key opts
  else pure (.none, .none)

/-- `_find_control` from `src/pages/Display.py` (no `or []` guard on the
controls value). -/
def display_find_control (catalog : PyVal) (control_id : String) : Except String PyVal := do
  let cs ← pyIter (← pyGet catalog "controls" (pyList []))
  findControlLoop control_id cs

/-- The option scan of `_footprint_dims` from `src/pages/Display.py`
(no `or {}` guard on the dims value). -/
def displayFpOptLoop (footprint_key : PyVal) : List PyVal → Except String (PyVal × PyVal)
  | [] => .ok (.none, .none)
  | opt :: rest => do
      if pyEq (← pyGet opt "key" .none) footprint_key then do
        let dims ← pyGet opt "dims" (pyDict [])
        pure (← pyGet dims "width_in" .none, ← pyGet dims "depth_in" .none)
      else displayFpOptLoop footprint_key rest

/-- `_footprint_dims(catalog, footprint_key)` from `src/pages/Display.py`
lines 169-177. -/
def display_footprint_dims (catalog : PyVal) (footprint_key : PyVal) :
    Except String (PyVal × PyVal) := do
  let fp ← display_find_control catalog "footprint"
  if truthy fp then do
    let opts ← pyIter (← pyGet fp "options" (pyList []))
    displayFpOptLoop footprint_key opts
  else pure (.none, .none)

/-! ## Embedding of the engine inlined in `src/pages/Display.py`

`render_pdq_form` walks the declared controls (writing the user's widget
values into `st.session_state.form`), then resolves parts with its own inline
copy of the rules, then computes totals.  The Streamlit widgets are external:
a widget's returned value is modelled as a function from the widget key to the
value the user currently has in it.  Loading the catalog JSON is out of scope
per the spec; the parsed catalog is a parameter. -/

/-- Numeric view of a value: Python treats bools, ints and floats as one
numeric tower for comparisons. -/
def pyNum? : PyVal → Option ℚ
  | .bool b => some (if b then 1 else 0)
  | .int n => some ((n : ℚ))
  | .float q => some q
  | _ => Option.none

/-- Python `a > b` on the values this program compares (numbers and strings;
other comparisons raise `TypeError`). -/
def pyGt (a b : PyVal) : Except String Bool :=
  match pyNum? a, pyNum? b with
  | some x, some y => .ok (if x > y then true else false)
  | _, _ =>
      match a, b with
      | .str s, .str t => .ok (if t < s then true else false)
      | _, _ => .error "TypeError: unsupported comparison"

/-- Python `max(a, b)`: returns `b` when `b > a`, else `a`. -/
def pyMax (a b : PyVal) : Except String PyVal := do
  if (← pyGt b a) then pure b else pure a

/-- `d.pop(k, None)` on the form dict, keeping the resulting dict. -/
def pyPop (v : PyVal) (k : String) : Except String PyVal :=
  match v with
  | .dict kvs => .ok (.dict (kvs.erase k))
  | _ => .error "AttributeError: no attribute pop"

/-- Python subscription `d[key]` with an arbitrary key value. -/
def pySubscrKey (v : PyVal) (key : PyVal) : Except String PyVal :=
  match v with
  | .dict kvs =>
      match key with
      | .str s =>
          match kvs.find? s with
          | some w => .ok w
          | _ => .error "KeyError"
      | .list _ => .error "TypeError: unhashable type: list"
      | .dict _ => .error "TypeError: unhashable type: dict"
      | _ => .error "KeyError"
  | _ => .error "TypeError: not subscriptable"

/-- `d[key] = v`: item assignment on the form dict.  Every key this program
assigns is a string control id; assigning a non-string key is modelled as an
error. -/
def pySetItem (d : PyVal) (key : PyVal) (v : PyVal) : Except String PyVal :=
  match d with
  | .dict kvs =>
      match key with
      | .str s => .ok (.dict (kvs.set s v))
      | .list _ => .error "TypeError: unhashable type: list"
      | .dict _ => .error "TypeError: unhashable type: dict"
      | _ => .error "TypeError: non-string dict key"
  | _ => .error "TypeError: does not support item assignment"

/-- Python `x in xs` over an already-materialised element list. -/
def pyListElem (x : PyVal) : List PyVal → Bool
  | [] => false
  | y :: ys => pyEq x y || pyListElem x ys

/-- `xs.index(x)`: position of the first `==`-equal element; raises
`ValueError` when absent. -/
def pyListIndex (xs : List PyVal) (x : PyVal) : Except String Nat :=
  match xs with
  | [] => .error "ValueError: not in list"
  | y :: ys =>
      if pyEq x y then .ok 0
      else do
        let i ← pyListIndex ys x
        pure (i + 1)

/-- `xs[i]` for a nonnegative index. -/
def pyListAt (xs : List PyVal) (i : Nat) : Except String PyVal :=
  match xs.get? i with
  | some x => .ok x
  | _ => .error "IndexError"

/-- Processing of one declared control by the `for ctrl in controls` loop of
`render_pdq_form` (`src/pages/Display.py` lines 318-372): skips the three
removed controls, pops `product_touches` from the form when assembly is not
turnkey, and otherwise stores the widget's value (option key for `single`
controls, `int`/`float` coerced value for `number` controls) under the
control id. -/
def walkOne (widget : String → PyVal) (form ctrl : PyVal) : Except String PyVal := do
  let cid ← pyGet ctrl "id" .none
  let ctype ← pyGet ctrl "type" .none
  let _label ← pyGet ctrl "label" .none
  let key := "pdq__" ++ pyStr cid
  if pyEq cid (.str "unit_weight_unit") || pyEq cid (.str "unit_weight_value") ||
      pyEq cid (.str "complexity_level") then
    pure form
  else do
    let gate ←
      if pyEq cid (.str "product_touches") then do
        let ak ← pyGet form "assembly" .none
        if !(pyEq ak (.str "assembly-turnkey")) then do
          let f2 ← pyPop form "product_touches"
          pure (some f2)
        else pure Option.none
      else pure Option.none
    match gate with
    | some f2 => pure f2
    | _ =>
      if pyEq ctype (.str "single") then do
        let opts ← pyGet ctrl "options" (pyList [])
        let optsL ← pyIter opts
        let labels ← optsL.mapM (fun o => pyGet o "label" .none)
        let keys ← optsL.mapM (fun o => pyGet o "key" .none)
        let _default_idx ← (do
          if (← pyInDict cid form) then do
            let fv ← pySubscrKey form cid
            if pyListElem fv keys then pyListIndex keys fv else pure 0
          else pure 0)
        let choice := widget key
        let i ← pyListIndex labels choice
        let v ← pyListAt keys i
        pySetItem form cid v
      else if pyEq ctype (.str "number") then do
        let min_v ← pyGet ctrl "min" (.int 0)
        let saved ← pyGetKey form cid .none
        if pyEq cid (.str "quantity") || pyEq cid (.str "divider_count") ||
            pyEq cid (.str "product_touches") then do
          let default ←
            match saved with
            | .none =>
                if pyEq cid (.str "quantity") then pyMax (.int 1) min_v
                else do
                  let n ← pyInt min_v
                  pure (PyVal.int n)
            | s => do
                let n ← pyInt s
                pure (PyVal.int n)
          let _ ← pyInt min_v
          let _ ← pyInt default
          let val := widget key
          let n ← pyInt val
          pySetItem form cid (.int n)
        else do
          let default ←
            match saved with
            | .none => do
                let q ← pyFloat min_v
                pure (PyVal.float q)
            | s => do
                let q ← pyFloat s
                pure (PyVal.float q)
          let _ ← pyFloat min_v
          let _ ← pyFloat default
          let val := widget key
          let q ← pyFloat val
          pySetItem form cid (.float q)
      else
        pure form

/-- The `for ctrl in controls` loop, threading the form. -/
def walkLoop (widget : String → PyVal) : List PyVal → PyVal → Except String PyVal
  | [], form => .ok form
  | c :: cs, form => do
      let f2 ← walkOne widget form c
      walkLoop widget cs f2

/-- The control walk of `render_pdq_form`: `controls = catalog.get("controls", [])`
followed by the loop over them. -/
def walkControls (catalog : PyVal) (form0 : PyVal) (widget : String → PyVal) :
    Except String PyVal := do
  let controls ← pyGet catalog "controls" (pyList [])
  let cl ← pyIter controls
  walkLoop widget cl form0

/-- The inline rule resolution of `render_pdq_form` (`src/pages/Display.py`
lines 398-441): five steps (no printed-inside step here), with the footprint
dims computed from the form's footprint key. -/
def display_resolve (catalog form : PyVal) : Except String (List (PyVal × Int)) := do
  let rules ← pyGet catalog "rules" (pyDict [])
  let fp_key ← pyGet form "footprint" .none
  let dims ← if truthy fp_key then display_footprint_dims catalog fp_key else pure (.none, .none)
  let width_in := dims.1
  let depth_in := dims.2
  let s1 ← (do
    if (← pyInStr "resolve_footprint_base" rules) then
      if truthy fp_key then do
        let r ← pySubscr rules "resolve_footprint_base"
        let base_part ← pyGetKey (← pyGet r "map" (pyDict [])) fp_key .none
        if truthy base_part then pure [(base_part, 1)] else pure []
      else pure []
    else pure [])
  let s2 ← (do
    if (← pyInStr "resolve_header" rules) then do
      let r ← pySubscr rules "resolve_header"
      let fv ← pyGetKey form (← pyGet r "when_control" .none) .none
      let wv ← pyGet r "when_value" .none
      let part ←
        if pyEq fv wv then do
          let mod ← pyGet r "match_on_dim" .none
          if pyEq mod (.str "width_in") && isNotNone width_in then do
            let els ← pyGet r "else" .none
            pyGetKey (← pyGet r "map" (pyDict [])) (.str (pyStr width_in)) els
          else pyGet r "else" .none
        else pyGet r "else" .none
      if truthy part then pure [(part, 1)] else pure []
    else pure [])
  let s3 ← (do
    if (← pyInStr "resolve_dividers" rules) then do
      let r ← pySubscr rules "resolve_dividers"
      let qty_ctrl ← pyGet r "quantity_control" .none
      let dqty ← readFormInt form qty_ctrl
      let part ←
        if dqty > 0 then do
          let mod ← pyGet r "match_on_dim" .none
          if pyEq mod (.str "depth_in") && isNotNone depth_in then do
            let els ← pyGet r "else" .none
            pyGetKey (← pyGet r "map" (pyDict [])) (.str (pyStr depth_in)) els
          else pure PyVal.none
        else pure PyVal.none
      if truthy part && dqty > 0 then pure [(part, dqty)] else pure []
    else pure [])
  let s4 ← (do
    if (← pyInStr "resolve_shipper" rules) then do
      let r ← pySubscr rules "resolve_shipper"
      let fv ← pyGetKey form (← pyGet r "when_control" .none) .none
      let wv ← pyGet r "when_value" .none
      if pyEq fv wv then do
        let els ← pyGet r "else" .none
        let part ← pyGetKey (← pyGet r "map" (pyDict [])) fp_key els
        if truthy part then pure [(part, 1)] else pure []
      else pure []
    else pure [])
  let s5 ← (do
    if (← pyInStr "resolve_assembly_touches" rules) then do
      let r ← pySubscr rules "resolve_assembly_touches"
      let fv ← pyGetKey form (← pyGet r "when_control" .none) .none
      let wv ← pyGet r "when_value" .none
      if pyEq fv wv then do
        let tq_ctrl ← pyGet r "quantity_control" .none
        let tqty ← readFormInt form tq_ctrl
        let minq ← pyInt (← pyGet r "min_quantity" (.int 1))
        if tqty ≥ minq then do
          let part ← pyGet r "part" .none
          if truthy part then pure [(part, tqty)] else pure []
        else pure []
      else pure []
    else pure [])
  pure (s1 ++ s2 ++ s3 ++ s4 ++ s5)

/-- One band of the inline unit-factor loop of `render_pdq_form`
(`src/pages/Display.py` lines 448-460); unlike `pricing.unit_factor` the
factor is only coerced when the band matches, there is no `or 0`/`or 1.0`
rescue on `min_qty`/`factor`, and `tier_boundary` is read per band. -/
def display_band (policy : PyVal) (qty : Int) (uf : ℚ) (band : PyVal) :
    Except String ℚ := do
  let min_q ← pyInt (← pyGet band "min_qty" (.int 0))
  let max_q ← pyGet band "max_qty" .none
  match max_q with
  | .none =>
      if qty ≥ min_q then pyFloat (← pyGet band "factor" (.float 1)) else pure uf
  | mq => do
      let inclusive := pyEq (← pyGet policy "tier_boundary" (.str "inclusive")) (.str "inclusive")
      if inclusive then
        if qty ≥ min_q then do
          let mx ← pyInt mq
          if qty ≤ mx then pyFloat (← pyGet band "factor" (.float 1)) else pure uf
        else pure uf
      else
        if qty ≥ min_q then do
          let mx ← pyInt mq
          if qty < mx then pyFloat (← pyGet band "factor" (.float 1)) else pure uf
        else pure uf

/-- The inline `for band in policy.get("unit_tiers", [])` loop. -/
def display_uf_loop (policy : PyVal) (qty : Int) : List PyVal → ℚ → Except String ℚ
  | [], uf => .ok uf
  | b :: bs, uf => do
      let uf2 ← display_band policy qty uf b
      display_uf_loop policy qty bs uf2

/-- The hardcoded `grid_factors` table of `render_pdq_form`
(`src/pages/Display.py` lines 381-392). -/
def gridFactors : List (String × ℚ) :=
  [("0–5 lb_Low", 1), ("0–5 lb_Medium", 21/20), ("0–5 lb_High", 11/10),
   ("5–10 lb_Low", 21/20), ("5–10 lb_Medium", 11/10), ("5–10 lb_High", 23/20),
   ("10+ lb_Low", 11/10), ("10+ lb_Medium", 23/20), ("10+ lb_High", 6/5)]

/-- The weight-tier row labels of the 3x3 selector. -/
def weightTiers : List String := ["0–5 lb", "5–10 lb", "10+ lb"]

/-- The complexity column labels of the 3x3 selector. -/
def complexityLevels : List String := ["Low", "Medium", "High"]

/-- The session value `render_weight_complexity_matrix` stores for a click on
matrix cell (row, col): the f-string `f"{wt}_{cx}"`. -/
def gridSelection (r c : Fin 3) : PyVal :=
  .str ((weightTiers.getD r.val "") ++ "_" ++ (complexityLevels.getD c.val ""))

/-- `grid_factor = grid_factors.get(selected_grid, 1.0) if selected_grid else 1.0`. -/
def display_grid_factor (selected_grid : PyVal) : Except String ℚ :=
  if truthy selected_grid then
    match selected_grid with
    | .str s => .ok ((List.lookup s gridFactors).getD 1)
    | .list _ => .error "TypeError: unhashable type: list"
    | .dict _ => .error "TypeError: unhashable type: dict"
    | _ => .ok 1
  else .ok 1

/-- The totals computed at the bottom of `render_pdq_form`
(`src/pages/Display.py` lines 444-472). -/
structure DisplayTotals where
  qty : Int
  unit_factor : ℚ
  base_markup : ℚ
  grid_factor : ℚ
  markup_pct : ℚ
  per_unit_parts_subtotal : ℚ
  per_unit_after_tier : ℚ
  program_base : ℚ
  final_total : ℚ
deriving DecidableEq

/-- The totals computation of `render_pdq_form` (`src/pages/Display.py`
lines 444-472), as a function of the catalog, the walked form, the resolved
parts and the persisted matrix selection. -/
def display_totals (catalog form : PyVal) (resolved : List (PyVal × Int))
    (selected_grid : PyVal) : Except String DisplayTotals := do
  let policy ← pyGet catalog "policy" (pyDict [])
  let qty ← pyInt (pyOr (← pyGet form "quantity" (.int 1)) (.int 1))
  let bands ← pyIter (← pyGet policy "unit_tiers" (pyList []))
  let uf ← display_uf_loop policy qty bands 1
  let base_markup ← pyFloat (← pyGet policy "base_markup" (.float (7/20)))
  let grid_factor ← display_grid_factor selected_grid
  let markup_pct := base_markup * grid_factor
  let subtotal := resolved.foldl (fun acc pq => acc + parts_value catalog pq.1 * ((pq.2 : Int) : ℚ)) 0
  let per_unit_after_tier := subtotal * uf
  let program_base := per_unit_after_tier * ((qty : Int) : ℚ)
  let final_total := program_base * (1 + markup_pct)
  pure { qty := qty, unit_factor := uf, base_markup := base_markup,
         grid_factor := grid_factor, markup_pct := markup_pct,
         per_unit_parts_subtotal := subtotal,
         per_unit_after_tier := per_unit_after_tier,
         program_base := program_base, final_total := final_total }

/-- The outcome of one `render_pdq_form` recomputation. -/
structure RenderResult where
  form : PyVal
  resolved : List (PyVal × Int)
  totals : DisplayTotals

/-- One full recomputation of `render_pdq_form` (`src/pages/Display.py`
lines 311-472): control walk, inline resolution, totals.  There is no
conditional guarding the resolution or totals steps in the source: they run
on every recomputation. -/
def render_pdq_form (catalog form0 : PyVal) (widget : String → PyVal)
    (selected_grid : PyVal) : Except String RenderResult := do
  let form ← walkControls catalog form0 widget
  let resolved ← display_resolve catalog form
  let totals ← display_totals catalog form resolved selected_grid
  pure { form := form, resolved := resolved, totals := totals }

/-! ## Generic `Except` reduction and inversion lemmas -/

@[simp]
theorem except_bind_ok_left {α β : Type} (a : α) (f : α → Except String β) :
    (Except.ok a >>= f) = f a := rfl

@[simp]
theorem except_bind_error_left {α β : Type} (e : String) (f : α → Except String β) :
    ((Except.error e : Except String α) >>= f) = Except.error e := rfl

@[simp]
theorem except_pure_eq_ok {α : Type} (a : α) :
    (pure a : Except String α) = Except.ok a := rfl

@[simp]
theorem except_throw_eq_error {α : Type} (e : String) :
    (throw e : Except String α) = Except.error e := rfl

theorem except_bind_eq_ok {α β : Type} {e : Except String α} {f : α → Except String β} {b : β} :
    (e >>= f) = .ok b ↔ ∃ a, e = .ok a ∧ f a = .ok b := by
  cases e <;> simp [Bind.bind, Except.bind]

/-! ## Claim C1 — matrix markup configuration errors -/

/-- A 3x3 grid literal with arbitrary cells. -/
def mkGrid3 (x00 x01 x02 x10 x11 x12 x20 x21 x22 : PyVal) : PyVal :=
  pyList [pyList [x00, x01, x02], pyList [x10, x11, x12], pyList [x20, x21, x22]]

/-- The cell of a 3x3 grid selected by (row, col). -/
def cell3 (x00 x01 x02 x10 x11 x12 x20 x21 x22 : PyVal) (r c : Fin 3) : PyVal :=
  match r.val, c.val with
  | 0, 0 => x00
  | 0, 1 => x01
  | 0, 2 => x02
  | 1, 0 => x10
  | 1, 1 => x11
  | 1, 2 => x12
  | 2, 0 => x20
  | 2, 1 => x21
  | _, _ => x22

/-- A policy whose `matrix_markups` is a 2x2 grid. -/
def pol2x2 : PyVal :=
  pyDict [("matrix_markups",
    pyList [pyList [.float (1/4), .float (3/10)], pyList [.float (3/10), .float (7/20)]])]

/-- A policy whose 3x3 `matrix_markups` grid holds `-0.1` at cell (0,0). -/
def negPolicy : PyVal :=
  pyDict [("matrix_markups",
    mkGrid3 (.float (-1/10)) (.float (3/10)) (.float (3/10))
            (.float (3/10)) (.float (3/10)) (.float (3/10))
            (.float (3/10)) (.float (3/10)) (.float (3/10)))]

/-- A catalog whose policy carries a malformed (2x2) markup grid. -/
def badGridCatalog : PyVal := pyDict [("policy", pol2x2)]

/-- C1 (amended): `matrix_markup_pct` raises whenever `policy.matrix_markups`
is missing or not exactly a 3x3 list of lists (in particular for a 2x2 grid),
and on a 3x3 grid it returns `float(grid[r][c])` of the selected cell — so a
non-numeric selected cell raises, but a negative selected cell is returned as
a number, and cells other than the selected one are never inspected. -/
theorem c1_matrix_markup_config :
    (∀ (kvs : PyDict) (r c : Int),
        is3x3 ((kvs.find? "matrix_markups").getD PyVal.none) = false →
        ∃ e, matrix_markup_pct (.dict kvs) (r, c) = .error e) ∧
    (matrix_markup_pct pol2x2 (0, 0) =
      .error "ValueError: Missing/invalid policy.matrix_markups (expected 3x3 list).") ∧
    (∀ (kvs : PyDict) (x00 x01 x02 x10 x11 x12 x20 x21 x22 : PyVal) (r c : Fin 3),
        kvs.find? "matrix_markups" =
          some (mkGrid3 x00 x01 x02 x10 x11 x12 x20 x21 x22) →
        matrix_markup_pct (.dict kvs) (((r.val : Int)), ((c.val : Int))) =
          pyFloat (cell3 x00 x01 x02 x10 x11 x12 x20 x21 x22 r c)) := by
  refine ⟨?_, rfl, ?_⟩
  · intro kvs r c h
    refine ⟨"ValueError: Missing/invalid policy.matrix_markups (expected 3x3 list).", ?_⟩
    simp [matrix_markup_pct, pyGet, h]
  · intro kvs x00 x01 x02 x10 x11 x12 x20 x21 x22 r c h
    fin_cases r <;> fin_cases c <;>
      simp [matrix_markup_pct, pyGet, h, mkGrid3, cell3, pyIndex, pyList,
        PyList.ofList, PyList.toList, is3x3, List.getD, PyList.length]

/-- C1 witness: the amended theorem applied at concrete inputs — a missing
grid errors, and a 3x3 grid returns the float of the selected cell. -/
theorem c1_matrix_markup_config_witness :
    (∃ e, matrix_markup_pct (.dict PyDict.nil) (0, 0) = .error e) ∧
    matrix_markup_pct negPolicy (((0 : Fin 3).val : Int), ((0 : Fin 3).val : Int)) =
      pyFloat (.float (-1/10)) := by
  constructor
  · exact c1_matrix_markup_config.1 PyDict.nil 0 0 rfl
  · exact c1_matrix_markup_config.2.2 (PyDict.ofList [("matrix_markups",
      mkGrid3 (.float (-1/10)) (.float (3/10)) (.float (3/10))
              (.float (3/10)) (.float (3/10)) (.float (3/10))
              (.float (3/10)) (.float (3/10)) (.float (3/10)))])
      (.float (-1/10)) (.float (3/10)) (.float (3/10)) (.float (3/10)) (.float (3/10))
      (.float (3/10)) (.float (3/10)) (.float (3/10)) (.float (3/10)) 0 0 rfl

/-- C1 counterexample: a 3x3 grid containing `-0.1` at the selected cell does
NOT raise — `matrix_markup_pct` returns the number `-0.1`; and totals
computation (`Display.py`) never consults `matrix_markups` at all, so a 2x2
grid still yields numeric totals. -/
theorem c1_counterexample :
    matrix_markup_pct negPolicy (0, 0) = .ok (-1/10) ∧
    display_totals badGridCatalog (pyDict []) [] .none =
      .ok { qty := 1, unit_factor := 1, base_markup := 7/20, grid_factor := 1,
            markup_pct := 7/20, per_unit_parts_subtotal := 0,
            per_unit_after_tier := 0, program_base := 0, final_total := 0 } := by
  constructor
  · rfl
  · simp [display_totals, badGridCatalog, pol2x2, pyDict, pyList, PyDict.ofList,
      PyDict.find?, pyGet, pyOr, truthy, pyIter, PyList.toList, PyList.ofList, pyInt,
      display_uf_loop, display_grid_factor, pyFloat]

/-! ## Claim C2 — form coercions and `parts_value` safety -/

/-- A catalog with only a dividers rule reading `divider_count`. -/
def divCatalog : PyVal :=
  pyDict [("rules", pyDict [("resolve_dividers",
    pyDict [("quantity_control", .str "divider_count"),
            ("match_on_dim", .str "depth_in"),
            ("map", pyDict [("16", .str "div-16")]),
            ("else", .str "div-generic")])])]

/-- C2 counterexample: a truthy non-numeric string in a quantity field makes
`resolve_parts_per_unit` raise `ValueError` (the `int(...)` coercion is not
guarded), contradicting "never raise". -/
theorem c2_counterexample :
    resolve_parts_per_unit divCatalog (pyDict [("divider_count", .str "abc")])
        (.none, .int 16) =
      .error "ValueError: invalid literal for int()" := rfl

/-- C2 (amended): the numeric form read `int(form.get(c, 0) or 0)` returns 0
for missing/`None`/falsy values and passes integers through, but raises on a
truthy string that does not parse as an integer (and
`resolve_parts_per_unit` propagates that exception); `parts_value` alone
never raises — any exception in its body yields `0.0`. -/
theorem c2_form_coercion :
    (∀ (form ctrl v : PyVal), pyGetKey form ctrl (.int 0) = .ok v →
        truthy v = false → readFormInt form ctrl = .ok 0) ∧
    (∀ (form ctrl : PyVal) (n : Int), pyGetKey form ctrl (.int 0) = .ok (.int n) →
        readFormInt form ctrl = .ok n) ∧
    (∀ (form ctrl : PyVal) (s e : String), pyGetKey form ctrl (.int 0) = .ok (.str s) →
        s ≠ "" → pyInt (.str s) = .error e → readFormInt form ctrl = .error e) ∧
    (∀ (catalog part_key : PyVal) (e : String),
        partsValueAttempt catalog part_key = .error e → parts_value catalog part_key = 0) ∧
    (∀ (catalog part_key : PyVal) (q : ℚ),
        partsValueAttempt catalog part_key = .ok q → parts_value catalog part_key = q) := by
  refine ⟨?_, ?_, ?_, ?_, ?_⟩
  · intro form ctrl v h ht
    simp [readFormInt, h, pyOr, ht, pyInt]
  · intro form ctrl n h
    by_cases hn : n = 0
    · subst hn; simp [readFormInt, h, pyOr, truthy, pyInt]
    · simp [readFormInt, h, pyOr, truthy, hn, pyInt]
  · intro form ctrl s e h hs he
    have ht : truthy (.str s) = true := by simp [truthy, hs]
    simp [readFormInt, h, pyOr, ht, he]
  · intro catalog part_key e h
    simp [parts_value, h]
  · intro catalog part_key q h
    simp [parts_value, h]

/-- C2 witness: the amended theorem applied at concrete inputs — a missing
key reads as 0, and the string "abc" raises. -/
theorem c2_form_coercion_witness :
    readFormInt (pyDict []) (.str "dc") = .ok 0 ∧
    readFormInt (pyDict [("dc", .str "abc")]) (.str "dc") =
      .error "ValueError: invalid literal for int()" ∧
    parts_value (.int 7) (.str "p") = 0 := by
  refine ⟨?_, ?_, ?_⟩
  · exact c2_form_coercion.1 (pyDict []) (.str "dc") (.int 0) rfl rfl
  · exact c2_form_coercion.2.2.1 (pyDict [("dc", .str "abc")]) (.str "dc") "abc"
      "ValueError: invalid literal for int()" rfl (by decide) rfl
  · exact c2_form_coercion.2.2.2.1 (.int 7) (.str "p")
      "AttributeError: no attribute get" rfl

/-! ## Claim C4 — unit-tier semantics -/

@[simp]
theorem PyList.toList_ofList (l : List PyVal) : (PyList.ofList l).toList = l := by
  induction l with
  | nil => rfl
  | cons x xs ih => simp [PyList.ofList, PyList.toList, ih]

/-- `tiers = policy.get("unit_tiers", []) or []` followed by iteration, for a
list value. -/
theorem pyIter_pyOr_list (l : List PyVal) :
    pyIter (pyOr (pyList l) (pyList [])) = .ok l := by
  cases l <;> simp [pyIter, pyOr, truthy, pyList, PyList.ofList, PyList.toList]

/-- A well-typed quantity band as catalog authors write them: integer bounds
(`max_qty` absent for an open-ended band) and a float factor. -/
structure Tier where
  min_qty : Int
  max_qty : Option Int
  factor : ℚ

/-- The band as the JSON dict the engine reads. -/
def tierToPy (t : Tier) : PyVal :=
  pyDict [("min_qty", .int t.min_qty),
          ("max_qty", match t.max_qty with | some m => .int m | _ => .none),
          ("factor", .float t.factor)]

/-- A pricing policy holding the given bands and boundary mode. -/
def policyOf (tiers : List Tier) (boundary : String) : PyVal :=
  pyDict [("unit_tiers", pyList (tiers.map tierToPy)), ("tier_boundary", .str boundary)]

/-- Band matching in the claim's words: an open-ended band matches when
`qty >= min_qty`; a bounded band matches when `min_qty <= qty <= max_qty`
(inclusive) or `min_qty <= qty < max_qty` (otherwise). -/
def tierMatches (inclusive : Bool) (qty : Int) (t : Tier) : Bool :=
  match t.max_qty with
  | Option.none => qty ≥ t.min_qty
  | some mx =>
      if inclusive then qty ≥ t.min_qty && qty ≤ mx
      else qty ≥ t.min_qty && qty < mx

/-- The claim's description of the loop: factor starts at 1.0 and each
matching band overwrites it in declaration order. -/
def unitFactorSpec (inclusive : Bool) (qty : Int) (tiers : List Tier) : ℚ :=
  tiers.foldl (fun uf t => if tierMatches inclusive qty t then t.factor else uf) 1

theorem unit_factor_band_tier (inclusive : Bool) (qty : Int) (uf : ℚ) (t : Tier)
    (hf : t.factor ≠ 0) :
    unit_factor_band inclusive qty uf (tierToPy t) =
      .ok (if tierMatches inclusive qty t then t.factor else uf) := by
  have hmin : pyInt (pyOr (.int t.min_qty) (.int 0)) = .ok t.min_qty := by
    by_cases h : t.min_qty = 0
    · simp [pyOr, truthy, h, pyInt]
    · simp [pyOr, truthy, h, pyInt]
  have hfac : pyFloat (pyOr (.float t.factor) (.float 1)) = .ok t.factor := by
    simp [pyOr, truthy, hf, pyFloat]
  cases hmx : t.max_qty with
  | none =>
      simp [unit_factor_band, tierToPy, pyDict, PyDict.ofList, PyDict.find?, pyGet,
        hmin, hfac, hmx, tierMatches]
  | some mx =>
      cases inclusive <;>
        simp [unit_factor_band, tierToPy, pyDict, PyDict.ofList, PyDict.find?, pyGet,
          hmin, hfac, hmx, tierMatches, show pyInt (.int mx) = .ok mx from rfl]

theorem unit_factor_loop_tiers (inclusive : Bool) (qty : Int) :
    ∀ (tiers : List Tier) (uf : ℚ), (∀ t ∈ tiers, t.factor ≠ 0) →
      unit_factor_loop inclusive qty (tiers.map tierToPy) uf =
        .ok (tiers.foldl (fun a t => if tierMatches inclusive qty t then t.factor else a) uf)
  | [], uf, _ => rfl
  | t :: ts, uf, h => by
      have hb := unit_factor_band_tier inclusive qty uf t (h t (by simp))
      have ih := unit_factor_loop_tiers inclusive qty ts
        (if tierMatches inclusive qty t then t.factor else uf)
        (fun u hu => h u (by simp [hu]))
      simp [unit_factor_loop, hb, ih, List.foldl]

theorem foldl_last_match (m : Tier → Bool) :
    ∀ (l : List Tier) (a : ℚ),
      l.foldl (fun uf t => if m t then t.factor else uf) a =
        (((l.filter m).getLast?).map Tier.factor).getD a := by
  intro l
  induction l with
  | nil => intro a; rfl
  | cons t ts ih =>
      intro a
      by_cases hm : m t
      · simp only [List.foldl, hm, if_pos, List.filter, ih]
        cases hft : ts.filter m with
        | nil => simp [hft, hm]
        | cons x xs =>
            cases hgl : (x :: xs).getLast? with
            | none => simp at hgl
            | some y => simp [hft, hm, hgl]
      · simp [List.foldl, hm, ih, List.filter]

/-- The claim's overlapping-open-bands example. -/
def lastMatchPolicy : PyVal :=
  pyDict [("unit_tiers", pyList
    [pyDict [("min_qty", .int 1), ("factor", .float 1)],
     pyDict [("min_qty", .int 5), ("factor", .float (4/5))]])]

/-- C4 (amended): for bands with nonzero factors, `unit_factor` starts from
1.0 and folds the declared bands in order — open-ended bands match when
`qty >= min_qty`, bounded bands respect the inclusive/exclusive boundary, and
the last matching band's factor is returned (1.0 when none match); the
claim's overlapping-bands example yields 0.8 at qty = 10.  (The nonzero
hypothesis is forced by the source's `or 1.0` rescue: a 0.0 factor is read
as 1.0, see the counterexample.) -/
theorem c4_unit_factor :
    (∀ (tiers : List Tier) (boundary : String) (qty : Int),
        (∀ t ∈ tiers, t.factor ≠ 0) →
        unit_factor (policyOf tiers boundary) qty =
          .ok (unitFactorSpec (boundary == "inclusive") qty tiers)) ∧
    (∀ (inclusive : Bool) (qty : Int) (tiers : List Tier),
        unitFactorSpec inclusive qty tiers =
          (((tiers.filter (tierMatches inclusive qty)).getLast?).map Tier.factor).getD 1) ∧
    (unit_factor lastMatchPolicy 10 = .ok (4/5)) := by
  refine ⟨?_, ?_, ?_⟩
  · intro tiers boundary qty h
    have hl := unit_factor_loop_tiers (boundary == "inclusive") qty tiers 1 h
    simp [unit_factor, policyOf, pyDict, PyDict.ofList, PyDict.find?, pyGet,
      pyIter_pyOr_list, pyEq, unitFactorSpec, hl]
  · intro inclusive qty tiers
    exact foldl_last_match (tierMatches inclusive qty) tiers 1
  · simp [unit_factor, lastMatchPolicy, pyDict, pyList, PyDict.ofList, PyDict.find?,
      pyGet, pyOr, truthy, pyIter, PyList.toList, PyList.ofList, pyEq,
      unit_factor_loop, unit_factor_band, pyInt, pyFloat]

/-- C4 witness: the spec's inclusive-boundary bands at qty = 10 — band 2
matches and 0.95 is returned. -/
theorem c4_unit_factor_witness :
    unit_factor (policyOf [⟨1, some 9, 1⟩, ⟨10, some 49, 19/20⟩] "inclusive") 10 =
      .ok (unitFactorSpec ("inclusive" == "inclusive") 10
        [⟨1, some 9, 1⟩, ⟨10, some 49, 19/20⟩]) ∧
    unitFactorSpec ("inclusive" == "inclusive") 10 [⟨1, some 9, 1⟩, ⟨10, some 49, 19/20⟩] =
      19/20 := by
  constructor
  · exact c4_unit_factor.1 [⟨1, some 9, 1⟩, ⟨10, some 49, 19/20⟩] "inclusive" 10
      (by intro t ht; simp at ht; rcases ht with h | h <;> subst h <;> norm_num)
  · norm_num [unitFactorSpec, tierMatches, List.foldl]

/-- A policy whose only band carries `factor: 0.0`. -/
def zeroFactorPolicy : PyVal :=
  pyDict [("unit_tiers", pyList [pyDict [("min_qty", .int 1), ("factor", .float 0)]])]

/-- C4 counterexample: a matching open-ended band with `factor: 0.0` does not
set the factor to 0.0 — the `float(band.get("factor", 1.0) or 1.0)` rescue
turns the falsy 0.0 into 1.0, so `unit_factor` returns 1, not the band's
declared factor. -/
theorem c4_counterexample : unit_factor zeroFactorPolicy 5 = .ok 1 ∧ (1 : ℚ) ≠ 0 := by
  constructor
  · simp [unit_factor, zeroFactorPolicy, pyDict, pyList, PyDict.ofList, PyDict.find?,
      pyGet, pyOr, truthy, pyIter, PyList.toList, PyList.ofList, pyEq,
      unit_factor_loop, unit_factor_band, pyInt, pyFloat]
  · norm_num

/-! ## Claim C3 — the totals formulas -/

/-- C3 (amended): whenever the totals computation succeeds, the computed
record satisfies `per_unit_after_tier = per_unit_parts_subtotal * unit_factor`,
`program_base = per_unit_after_tier * qty` and
`final_total = program_base * (1 + markup_pct)`; but
`markup_pct = base_markup * grid_factor` with `grid_factor` looked up in the
hardcoded `grid_factors` table from the selected weight/complexity cell
(1.0 when nothing is selected) — `matrix_markup_pct` is never consulted — and
no `final_per_unit` is computed at all. -/
theorem c3_display_totals :
    ∀ (catalog form : PyVal) (resolved : List (PyVal × Int)) (sel : PyVal)
      (t : DisplayTotals),
      display_totals catalog form resolved sel = .ok t →
      t.per_unit_after_tier = t.per_unit_parts_subtotal * t.unit_factor ∧
      t.program_base = t.per_unit_after_tier * ((t.qty : Int) : ℚ) ∧
      t.markup_pct = t.base_markup * t.grid_factor ∧
      t.final_total = t.program_base * (1 + t.markup_pct) ∧
      t.per_unit_parts_subtotal =
        resolved.foldl (fun acc pq => acc + parts_value catalog pq.1 * ((pq.2 : Int) : ℚ)) 0 ∧
      display_grid_factor sel = .ok t.grid_factor := by
  intro catalog form resolved sel t h
  unfold display_totals at h
  rcases except_bind_eq_ok.mp h with ⟨policy, _, h⟩
  rcases except_bind_eq_ok.mp h with ⟨qv, _, h⟩
  rcases except_bind_eq_ok.mp h with ⟨qty, _, h⟩
  rcases except_bind_eq_ok.mp h with ⟨tiersv, _, h⟩
  rcases except_bind_eq_ok.mp h with ⟨bands, _, h⟩
  rcases except_bind_eq_ok.mp h with ⟨uf, _, h⟩
  rcases except_bind_eq_ok.mp h with ⟨bmv, _, h⟩
  rcases except_bind_eq_ok.mp h with ⟨bm, _, h⟩
  rcases except_bind_eq_ok.mp h with ⟨gf, hgf, h⟩
  simp only [except_pure_eq_ok, Except.ok.injEq] at h
  subst h
  simp [hgf]

/-- The policy of the C3 scenario: an all-0.30 markup matrix. -/
def c3policy : PyVal :=
  pyDict [("matrix_markups",
    mkGrid3 (.float (3/10)) (.float (3/10)) (.float (3/10))
            (.float (3/10)) (.float (3/10)) (.float (3/10))
            (.float (3/10)) (.float (3/10)) (.float (3/10)))]

/-- A catalog carrying `c3policy` and one $10 part. -/
def c3catalog : PyVal :=
  pyDict [("policy", c3policy),
          ("parts", pyDict [("p", pyDict [("base_value", .float 10)])])]

/-- Form: quantity 5. -/
def c3form : PyVal := pyDict [("quantity", .int 5)]

/-- The totals the Display engine computes for the C3 scenario. -/
def c3totals : DisplayTotals :=
  { qty := 5, unit_factor := 1, base_markup := 7/20, grid_factor := 1,
    markup_pct := 7/20, per_unit_parts_subtotal := 10, per_unit_after_tier := 10,
    program_base := 50, final_total := 135/2 }

/-- C3 witness: the amended theorem applied to the concrete scenario. -/
theorem c3_display_totals_witness :
    c3totals.per_unit_after_tier = c3totals.per_unit_parts_subtotal * c3totals.unit_factor ∧
    c3totals.program_base = c3totals.per_unit_after_tier * ((c3totals.qty : Int) : ℚ) ∧
    c3totals.markup_pct = c3totals.base_markup * c3totals.grid_factor ∧
    c3totals.final_total = c3totals.program_base * (1 + c3totals.markup_pct) ∧
    c3totals.per_unit_parts_subtotal =
      List.foldl (fun acc pq => acc + parts_value c3catalog pq.1 * ((pq.2 : Int) : ℚ)) 0
        [((.str "p" : PyVal), (1 : Int))] ∧
    display_grid_factor (gridSelection 0 0) = .ok c3totals.grid_factor := by
  exact c3_display_totals c3catalog c3form [(.str "p", 1)] (gridSelection 0 0) c3totals
    (by simp [display_totals, c3catalog, c3policy, c3form, c3totals, pyDict, pyList,
      PyDict.ofList, PyDict.find?, pyGet, pyGetKey, pyOr, truthy, pyIter, PyList.toList,
      PyList.ofList, pyInt, pyFloat, display_uf_loop, display_grid_factor, gridSelection,
      weightTiers, complexityLevels, gridFactors, parts_value, partsValueAttempt,
      List.lookup, mkGrid3]
     <;> norm_num)

/-- C3 counterexample: in the concrete scenario the computed markup is
`0.35` (the `base_markup` default times the grid factor of the selected cell
(0,0)), while `matrix_markup_pct(policy, (0,0))` is `0.30` — the totals do
not satisfy `markup_pct = matrix_markup_pct(policy, matrix_selection)`. -/
theorem c3_counterexample :
    display_totals c3catalog c3form [(.str "p", 1)] (gridSelection 0 0) = .ok c3totals ∧
    matrix_markup_pct c3policy (0, 0) = .ok (3/10) ∧
    c3totals.markup_pct = 7/20 ∧ ((7/20 : ℚ)) ≠ ((3/10 : ℚ)) := by
  refine ⟨?_, rfl, rfl, by norm_num⟩
  simp [display_totals, c3catalog, c3policy, c3form, c3totals, pyDict, pyList,
    PyDict.ofList, PyDict.find?, pyGet, pyGetKey, pyOr, truthy, pyIter, PyList.toList,
    PyList.ofList, pyInt, pyFloat, display_uf_loop, display_grid_factor, gridSelection,
    weightTiers, complexityLevels, gridFactors, parts_value, partsValueAttempt,
    List.lookup, mkGrid3]
  <;> norm_num

/-! ## Claim C7 — footprint dimension lookup -/

/-- `pyIter (pyOr (.list xs) (pyList []))` always yields the elements. -/
theorem pyIter_pyOr_spine (xs : PyList) :
    pyIter (pyOr (.list xs) (pyList [])) = .ok xs.toList := by
  cases xs <;> simp [pyIter, pyOr, truthy, pyList, PyList.ofList, PyList.toList]

/-- Iterating a Python list value yields its elements. -/
theorem pyIter_list (xs : PyList) : pyIter (.list xs) = .ok xs.toList := rfl

/-- An option is well-shaped when it is a dict whose `dims` entry, if present,
is a dict. -/
def wfOption (opt : PyVal) : Bool :=
  match opt with
  | .dict kvs =>
      match kvs.find? "dims" with
      | Option.none => true
      | some (.dict _) => true
      | some _ => false
  | _ => false

/-- A control is well-shaped when it is a dict whose `options` entry, if
present, is a list of well-shaped options. -/
def wfControl (c : PyVal) : Bool :=
  match c with
  | .dict kvs =>
      match kvs.find? "options" with
      | Option.none => true
      | some (.list xs) => xs.toList.all wfOption
      | some _ => false
  | _ => false

/-- A catalog whose `controls` entry, if present, is a list of well-shaped
controls. -/
def wfControls (catalog : PyVal) : Bool :=
  match catalog with
  | .dict kvs =>
      match kvs.find? "controls" with
      | Option.none => true
      | some (.list xs) => xs.toList.all wfControl
      | some _ => false
  | _ => false

/-- "The control whose id is `cid`" — the test the loop applies. -/
def isCtrlId (cid : String) (c : PyVal) : Bool :=
  match c with
  | .dict kvs => pyEq ((kvs.find? "id").getD .none) (.str cid)
  | _ => false

/-- The declared controls of a catalog (claim-side view). -/
def controlsOf (catalog : PyVal) : List PyVal :=
  match catalog with
  | .dict kvs =>
      match kvs.find? "controls" with
      | some (.list xs) => xs.toList
      | _ => []
  | _ => []

/-- The declared options of a control (claim-side view). -/
def optionsOf (c : PyVal) : List PyVal :=
  match c with
  | .dict kvs =>
      match kvs.find? "options" with
      | some (.list xs) => xs.toList
      | _ => []
  | _ => []

/-- "The option whose key equals the footprint key". -/
def optKeyIs (fk : PyVal) (opt : PyVal) : Bool :=
  match opt with
  | .dict kvs => pyEq ((kvs.find? "key").getD .none) fk
  | _ => false

/-- The option's `dims.width_in`/`dims.depth_in`, null when absent. -/
def dimsOf (opt : PyVal) : PyVal × PyVal :=
  match opt with
  | .dict kvs =>
      match kvs.find? "dims" with
      | some (.dict dkvs) =>
          ((dkvs.find? "width_in").getD .none, (dkvs.find? "depth_in").getD .none)
      | _ => (.none, .none)
  | _ => (.none, .none)

/-- The claim's description of `footprint_dims`: find the control with id
`"footprint"` (else (null, null)); scan its options for the given key and
return that option's `dims.width_in`/`dims.depth_in` (else (null, null)). -/
def fpDimsSpec (catalog fk : PyVal) : PyVal × PyVal :=
  match (controlsOf catalog).find? (isCtrlId "footprint") with
  | some fp =>
      match (optionsOf fp).find? (optKeyIs fk) with
      | some opt => dimsOf opt
      | _ => (.none, .none)
  | _ => (.none, .none)

theorem findControlLoop_wf (cid : String) :
    ∀ (l : List PyVal), (∀ c ∈ l, wfControl c = true) →
      findControlLoop cid l = .ok ((l.find? (isCtrlId cid)).getD .none)
  | [], _ => rfl
  | c :: cs, h => by
      obtain ⟨kvs, rfl⟩ : ∃ kvs, c = .dict kvs := by
        have := h c (by simp)
        cases c <;> simp [wfControl] at this ⊢
      have ih := findControlLoop_wf cid cs (fun u hu => h u (by simp [hu]))
      by_cases he : pyEq ((kvs.find? "id").getD .none) (.str cid)
      · simp [findControlLoop, pyGet, he, List.find?, isCtrlId]
      · simp [findControlLoop, pyGet, he, List.find?, isCtrlId, ih]

theorem isCtrlId_found {cid : String} {c : PyVal} (h : isCtrlId cid c = true) :
    ∃ k v r, c = .dict (.cons k v r) := by
  cases c with
  | dict kvs =>
      cases kvs with
      | nil => simp [isCtrlId, PyDict.find?, pyEq] at h
      | cons k v r => exact ⟨k, v, r, rfl⟩
  | none => simp [isCtrlId] at h
  | bool b => simp [isCtrlId] at h
  | int n => simp [isCtrlId] at h
  | float q => simp [isCtrlId] at h
  | str s => simp [isCtrlId] at h
  | list xs => simp [isCtrlId] at h

theorem fpOptLoop_wf (fk : PyVal) :
    ∀ (l : List PyVal), (∀ o ∈ l, wfOption o = true) →
      fpOptLoop fk l =
        .ok (match l.find? (optKeyIs fk) with
             | some opt => dimsOf opt
             | _ => ((.none : PyVal), (.none : PyVal))) ∧
      displayFpOptLoop fk l =
        .ok (match l.find? (optKeyIs fk) with
             | some opt => dimsOf opt
             | _ => ((.none : PyVal), (.none : PyVal)))
  | [], _ => ⟨rfl, rfl⟩
  | opt :: rest, h => by
      obtain ⟨kvs, rfl⟩ : ∃ kvs, opt = .dict kvs := by
        have := h opt (by simp)
        cases opt <;> simp [wfOption] at this ⊢
      have ih := fpOptLoop_wf fk rest (fun u hu => h u (by simp [hu]))
      have hwf := h (.dict kvs) (by simp)
      by_cases he : pyEq ((kvs.find? "key").getD .none) fk
      · cases hd : kvs.find? "dims" with
        | none =>
            constructor <;>
              simp [fpOptLoop, displayFpOptLoop, pyGet, he, hd, List.find?, optKeyIs,
                dimsOf, pyOr, truthy, pyDict, PyDict.ofList, PyDict.find?]
        | some d =>
            obtain ⟨dkvs, rfl⟩ : ∃ dkvs, d = .dict dkvs := by
              cases d <;> simp [wfOption, hd] at hwf ⊢
            cases dkvs with
            | nil =>
                constructor <;>
                  simp [fpOptLoop, displayFpOptLoop, pyGet, he, hd, List.find?, optKeyIs,
                    dimsOf, pyOr, truthy, pyDict, PyDict.ofList, PyDict.find?]
            | cons dk dv dr =>
                constructor <;>
                  simp [fpOptLoop, displayFpOptLoop, pyGet, he, hd, List.find?, optKeyIs,
                    dimsOf, pyOr, truthy]
      · constructor <;>
          simp [fpOptLoop, displayFpOptLoop, pyGet, he, List.find?, optKeyIs, ih.1, ih.2]

/-- C7: on any well-shaped catalog, both `footprint_dims` (catalog.py) and
`_footprint_dims` (Display.py) never raise and return exactly the claim's
description `fpDimsSpec`: (null, null) when no control has id `"footprint"`
or no option carries the key (unknown keys included), and the matching
option's `dims.width_in`/`dims.depth_in` otherwise. -/
theorem c7_footprint_dims :
    ∀ (catalog fk : PyVal), wfControls catalog = true →
      footprint_dims catalog fk = .ok (fpDimsSpec catalog fk) ∧
      display_footprint_dims catalog fk = .ok (fpDimsSpec catalog fk) := by
  intro catalog fk hwf
  obtain ⟨kvs, rfl⟩ : ∃ kvs, catalog = .dict kvs := by
    cases catalog <;> simp [wfControls] at hwf ⊢
  cases hc : kvs.find? "controls" with
  | none =>
      constructor <;>
        simp [footprint_dims, display_footprint_dims, find_control, display_find_control,
          pyGet, hc, pyOr, truthy, pyList, PyList.ofList, pyIter, PyList.toList,
          findControlLoop, fpDimsSpec, controlsOf]
  | some v =>
      obtain ⟨xs, rfl⟩ : ∃ xs, v = .list xs := by
        cases v <;> simp [wfControls, hc] at hwf ⊢
      simp only [wfControls, hc] at hwf
      have hall : ∀ c ∈ xs.toList, wfControl c = true := by
        intro c hcm
        exact List.all_eq_true.mp hwf c hcm
      have hloop := findControlLoop_wf "footprint" xs.toList hall
      have hfc : find_control (.dict kvs) "footprint" =
          .ok ((xs.toList.find? (isCtrlId "footprint")).getD .none) := by
        simp [find_control, pyGet, hc, pyIter_pyOr_spine, hloop]
      have hdfc : display_find_control (.dict kvs) "footprint" =
          .ok ((xs.toList.find? (isCtrlId "footprint")).getD .none) := by
        simp [display_find_control, pyGet, hc, pyIter_list, hloop]
      cases hf : xs.toList.find? (isCtrlId "footprint") with
      | none =>
          constructor <;>
            simp [footprint_dims, display_footprint_dims, hfc, hdfc, hf, truthy,
              fpDimsSpec, controlsOf, hc]
      | some fp =>
          have hfp := List.find?_some hf
          have hfpmem := List.mem_of_find?_eq_some hf
          obtain ⟨k2, v2, r2, rfl⟩ := isCtrlId_found hfp
          have hfpwf : wfControl (.dict (.cons k2 v2 r2)) = true := hall _ hfpmem
          cases ho : (PyDict.cons k2 v2 r2).find? "options" with
          | none =>
              constructor <;>
                simp [footprint_dims, display_footprint_dims, hfc, hdfc, hf, truthy,
                  pyGet, ho, pyOr, pyList, PyList.ofList, PyList.toList, pyIter,
                  fpOptLoop, displayFpOptLoop, fpDimsSpec, controlsOf, hc, optionsOf]
          | some ov =>
              obtain ⟨os, rfl⟩ : ∃ os, ov = .list os := by
                cases ov <;> simp [wfControl, ho] at hfpwf ⊢
              have hallo : ∀ o ∈ os.toList, wfOption o = true := by
                intro o hom
                simp only [wfControl, ho] at hfpwf
                exact List.all_eq_true.mp hfpwf o hom
              have holoop := fpOptLoop_wf fk os.toList hallo
              have hoc : pyIter (pyOr (.list os) (pyList [])) = .ok os.toList :=
                pyIter_pyOr_spine os
              constructor <;>
                simp [footprint_dims, display_footprint_dims, hfc, hdfc, hf, truthy,
                  pyGet, ho, hoc, pyIter_list, holoop.1, holoop.2, fpDimsSpec,
                  controlsOf, hc, optionsOf]

/-- A concrete well-shaped catalog: one footprint control with a 24x16 option. -/
def fpCatalog : PyVal :=
  pyDict [("controls", pyList [pyDict
    [("id", .str "footprint"), ("type", .str "single"),
     ("options", pyList [pyDict
       [("key", .str "fp-24"), ("label", .str "24 inch"),
        ("dims", pyDict [("width_in", .int 24), ("depth_in", .int 16)])]])]])]

/-- C7 witness: the theorem applied to a concrete catalog — a known key
returns its dims, an unknown key returns (null, null). -/
theorem c7_footprint_dims_witness :
    footprint_dims fpCatalog (.str "fp-24") = .ok (.int 24, .int 16) ∧
    display_footprint_dims fpCatalog (.str "unknown") = .ok (.none, .none) := by
  have hs1 : fpDimsSpec fpCatalog (.str "fp-24") = (.int 24, .int 16) := by
    simp [fpDimsSpec, controlsOf, fpCatalog, isCtrlId, optKeyIs, dimsOf, optionsOf,
      pyDict, pyList, PyDict.ofList, PyList.ofList, PyList.toList, PyDict.find?,
      List.find?, pyEq]
  have hs2 : fpDimsSpec fpCatalog (.str "unknown") = (.none, .none) := by
    simp [fpDimsSpec, controlsOf, fpCatalog, isCtrlId, optKeyIs, dimsOf, optionsOf,
      pyDict, pyList, PyDict.ofList, PyList.ofList, PyList.toList, PyDict.find?,
      List.find?, pyEq]
  constructor
  · have h := (c7_footprint_dims fpCatalog (.str "fp-24") (by rfl)).1
    rwa [hs1] at h
  · have h := (c7_footprint_dims fpCatalog (.str "unknown") (by rfl)).2
    rwa [hs2] at h

/-! ## Claim C8 — the header step -/

/-- Pushing `Except.ok` out of the final truthiness guard of a step body. -/
theorem okIfPush (p : PyVal) (q : Int) :
    (if truthy p = true then (Except.ok [(p, q)] : Except String (List (PyVal × Int)))
     else .ok []) =
      .ok (if truthy p = true then [(p, q)] else []) := by
  by_cases h : truthy p = true <;> simp [h]

/-- `dict.get` on a dict receiver, in lookup form. -/
theorem pyGet_dict (kvs : PyDict) (k : String) (d : PyVal) :
    pyGet (.dict kvs) k d = .ok ((kvs.find? k).getD d) := rfl

/-- `dict.get` with a string key, in lookup form. -/
theorem pyGetKey_dict_str (kvs : PyDict) (s : String) (d : PyVal) :
    pyGetKey (.dict kvs) (.str s) d = .ok ((kvs.find? s).getD d) := rfl

/-- The claim's description of the header step's target part: default
`rule.else`, overridden to `rule.map[str(width)]` (falling back to
`rule.else`) only when the when-condition holds, `match_on_dim` is
`"width_in"` and the width is known. -/
def headerTargetSpec (rkvs : PyDict) (fv width_in : PyVal) (mkvs : PyDict) : PyVal :=
  let els := (rkvs.find? "else").getD .none
  let wv := (rkvs.find? "when_value").getD .none
  let mod := (rkvs.find? "match_on_dim").getD .none
  if pyEq fv wv && (pyEq mod (.str "width_in") && isNotNone width_in) then
    (mkvs.find? (pyStr width_in)).getD els
  else els

/-- C8: when the catalog has a `resolve_header` rule (a dict), the form read
of `rule.when_control` succeeds with value `fv`, and the rule's `map` entry
is a dict after the `or {}` rescue, the header step emits `(part, 1)` exactly
when the claim's target part is truthy — in particular a truthy `else` part
is emitted even when the when-condition fails. -/
theorem c8_header_step :
    ∀ (rules form fp_key width_in depth_in : PyVal) (rkvs : PyDict) (fv : PyVal)
      (mkvs : PyDict),
      getRule rules "resolve_header" = .ok (some (.dict rkvs)) →
      pyGetKey form ((rkvs.find? "when_control").getD .none) .none = .ok fv →
      pyOr ((rkvs.find? "map").getD (pyDict [])) (pyDict []) = .dict mkvs →
      (ruleStep .header rules form fp_key width_in depth_in =
        .ok (if truthy (headerTargetSpec rkvs fv width_in mkvs)
             then [(headerTargetSpec rkvs fv width_in mkvs, 1)] else []) ∧
       (pyEq fv ((rkvs.find? "when_value").getD .none) = false →
         headerTargetSpec rkvs fv width_in mkvs = (rkvs.find? "else").getD .none)) := by
  intro rules form fp_key width_in depth_in rkvs fv mkvs h1 h2 h3
  constructor
  · simp only [ruleStep, h1, except_bind_ok_left]
    by_cases hb : pyEq fv ((rkvs.find? "when_value").getD PyVal.none) = true
    · by_cases hm : (pyEq ((rkvs.find? "match_on_dim").getD PyVal.none)
          (.str "width_in") && isNotNone width_in) = true
      · simp only [Bool.and_eq_true] at hm
        simp [headerBody, pyGet, pyGetKey_dict_str, h2, h3, hb, hm, headerTargetSpec,
          okIfPush]
      · simp only [Bool.and_eq_true] at hm
        simp [headerBody, pyGet, pyGetKey_dict_str, h2, h3, hb, hm, headerTargetSpec,
          okIfPush]
    · simp [headerBody, pyGet, pyGetKey_dict_str, h2, h3, hb, headerTargetSpec, okIfPush]
  · intro hb
    simp [headerTargetSpec, hb]

/-- The header rule of the C8 witness scenario. -/
def c8rkvs : PyDict :=
  PyDict.ofList
    [("when_control", .str "header_style"), ("when_value", .str "header-yes"),
     ("match_on_dim", .str "width_in"), ("map", pyDict [("24", .str "hdr-24")]),
     ("else", .str "hdr-else")]

/-- Rules dict containing just the header rule. -/
def c8rules : PyVal := pyDict [("resolve_header", .dict c8rkvs)]

/-- The header rule's map as a dict spine. -/
def c8mkvs : PyDict := PyDict.ofList [("24", .str "hdr-24")]

/-- A form answering the when-control affirmatively. -/
def c8form : PyVal := pyDict [("header_style", .str "header-yes")]

/-- C8 witness: the theorem applied at the concrete header scenario. -/
theorem c8_header_step_witness :
    ruleStep .header c8rules c8form .none (.int 24) .none =
      .ok (if truthy (headerTargetSpec c8rkvs (.str "header-yes") (.int 24) c8mkvs)
           then [(headerTargetSpec c8rkvs (.str "header-yes") (.int 24) c8mkvs, 1)]
           else []) :=
  (c8_header_step c8rules c8form .none (.int 24) .none c8rkvs (.str "header-yes") c8mkvs
    rfl rfl rfl).1

/-! ## Claim C10 — invariants of the resolved-parts list -/

/-- The final guard of every step body: either nothing or a single truthy
entry with the given quantity. -/
theorem tailShape {p : PyVal} {q : Int} {l : List (PyVal × Int)}
    (h : (if truthy p = true then (Except.ok [(p, q)] : Except String (List (PyVal × Int)))
          else .ok []) = .ok l) :
    l = [] ∨ ∃ u, truthy u = true ∧ l = [(u, q)] := by
  by_cases ht : truthy p = true
  · right
    simp only [ht, if_true, Except.ok.injEq] at h
    exact ⟨p, ht, h.symm⟩
  · left
    simp [ht] at h
    exact h

theorem fpBaseBody_shape {r fp : PyVal} {l : List (PyVal × Int)}
    (h : fpBaseBody r fp = .ok l) : l = [] ∨ ∃ p, truthy p = true ∧ l = [(p, 1)] := by
  unfold fpBaseBody at h
  rcases except_bind_eq_ok.mp h with ⟨m, _, h⟩
  rcases except_bind_eq_ok.mp h with ⟨bp, _, h⟩
  exact tailShape h

theorem headerBody_shape {r form w : PyVal} {l : List (PyVal × Int)}
    (h : headerBody r form w = .ok l) : l = [] ∨ ∃ p, truthy p = true ∧ l = [(p, 1)] := by
  unfold headerBody at h
  rcases except_bind_eq_ok.mp h with ⟨els, _, h⟩
  rcases except_bind_eq_ok.mp h with ⟨wc, _, h⟩
  rcases except_bind_eq_ok.mp h with ⟨fv, _, h⟩
  rcases except_bind_eq_ok.mp h with ⟨wv, _, h⟩
  simp only [] at h
  by_cases hb : pyEq fv wv = true
  · simp only [hb, if_true] at h
    rcases except_bind_eq_ok.mp h with ⟨mod, _, h⟩
    by_cases hm : (pyEq mod (.str "width_in") && isNotNone w) = true
    · simp only [hm, if_true] at h
      rcases except_bind_eq_ok.mp h with ⟨els2, _, h⟩
      rcases except_bind_eq_ok.mp h with ⟨mp, _, h⟩
      rcases except_bind_eq_ok.mp h with ⟨part, _, h⟩
      exact tailShape h
    · simp only [hm, if_false] at h
      exact tailShape h
  · simp only [hb, if_false] at h
    exact tailShape h

theorem dividersBody_shape {r form d : PyVal} {l : List (PyVal × Int)}
    (h : dividersBody r form d = .ok l) :
    l = [] ∨ ∃ p q, truthy p = true ∧ 0 < q ∧ l = [(p, q)] := by
  unfold dividersBody at h
  rcases except_bind_eq_ok.mp h with ⟨qc, _, h⟩
  rcases except_bind_eq_ok.mp h with ⟨dqty, _, h⟩
  by_cases hd : dqty > 0
  · simp only [hd, if_true] at h
    rcases except_bind_eq_ok.mp h with ⟨mod, _, h⟩
    by_cases hm : (pyEq mod (.str "depth_in") && isNotNone d) = true
    · simp only [hm, if_true] at h
      rcases except_bind_eq_ok.mp h with ⟨els, _, h⟩
      rcases except_bind_eq_ok.mp h with ⟨mp, _, h⟩
      rcases except_bind_eq_ok.mp h with ⟨part, _, h⟩
      rcases tailShape h with rfl | ⟨u, hu, rfl⟩
      · exact Or.inl rfl
      · exact Or.inr ⟨u, dqty, hu, hd, rfl⟩
    · simp [hm] at h
      exact Or.inl h
  · simp [hd] at h
    exact Or.inl h

theorem shipperBody_shape {r form fp : PyVal} {l : List (PyVal × Int)}
    (h : shipperBody r form fp = .ok l) : l = [] ∨ ∃ p, truthy p = true ∧ l = [(p, 1)] := by
  unfold shipperBody at h
  rcases except_bind_eq_ok.mp h with ⟨wc, _, h⟩
  rcases except_bind_eq_ok.mp h with ⟨fv, _, h⟩
  rcases except_bind_eq_ok.mp h with ⟨wv, _, h⟩
  by_cases hb : pyEq fv wv = true
  · simp only [hb, if_true] at h
    rcases except_bind_eq_ok.mp h with ⟨els, _, h⟩
    rcases except_bind_eq_ok.mp h with ⟨mp, _, h⟩
    rcases except_bind_eq_ok.mp h with ⟨part, _, h⟩
    exact tailShape h
  · simp [hb] at h
    exact Or.inl h

theorem assemblyBody_shape {r form : PyVal} {l : List (PyVal × Int)}
    (h : assemblyBody r form = .ok l) : l = [] ∨ ∃ p q, truthy p = true ∧ l = [(p, q)] := by
  unfold assemblyBody at h
  rcases except_bind_eq_ok.mp h with ⟨wc, _, h⟩
  rcases except_bind_eq_ok.mp h with ⟨fv, _, h⟩
  rcases except_bind_eq_ok.mp h with ⟨wv, _, h⟩
  by_cases hb : pyEq fv wv = true
  · simp only [hb, if_true] at h
    rcases except_bind_eq_ok.mp h with ⟨tqc, _, h⟩
    rcases except_bind_eq_ok.mp h with ⟨tqty, _, h⟩
    rcases except_bind_eq_ok.mp h with ⟨mq0, _, h⟩
    rcases except_bind_eq_ok.mp h with ⟨minq, _, h⟩
    by_cases hq : tqty ≥ minq
    · simp only [hq, if_true] at h
      rcases except_bind_eq_ok.mp h with ⟨part, _, h⟩
      rcases tailShape h with rfl | ⟨u, hu, rfl⟩
      · exact Or.inl rfl
      · exact Or.inr ⟨u, tqty, hu, rfl⟩
    · simp [hq] at h
      exact Or.inl h
  · simp [hb] at h
    exact Or.inl h

theorem printedBody_shape {r form : PyVal} {l : List (PyVal × Int)}
    (h : printedBody r form = .ok l) : l = [] ∨ ∃ p, truthy p = true ∧ l = [(p, 1)] := by
  unfold printedBody at h
  rcases except_bind_eq_ok.mp h with ⟨cid, _, h⟩
  rcases except_bind_eq_ok.mp h with ⟨sel, _, h⟩
  rcases except_bind_eq_ok.mp h with ⟨mp, _, h⟩
  rcases except_bind_eq_ok.mp h with ⟨part, _, h⟩
  exact tailShape h

/-- Per-step invariants of any successful `ruleStep` run. -/
theorem ruleStep_shape (k : RuleName) (rules form fp w d : PyVal)
    (l : List (PyVal × Int)) (h : ruleStep k rules form fp w d = .ok l) :
    ∀ e ∈ l, truthy e.1 = true ∧ (k = .dividers → 0 < e.2) ∧
      (k ≠ .dividers → k ≠ .assembly_touches → e.2 = 1) := by
  cases k with
  | footprint_base =>
      unfold ruleStep at h
      by_cases hfp : truthy fp = true
      · simp only [hfp, if_true] at h
        rcases except_bind_eq_ok.mp h with ⟨ro, _, h⟩
        cases ro with
        | some r =>
            rcases fpBaseBody_shape h with rfl | ⟨p, ht, rfl⟩
            · intro e he; cases he
            · intro e he
              simp only [List.mem_singleton] at he
              subst he
              refine ⟨ht, ?_, ?_⟩
              · intro hk; cases hk
              · intro _ _; rfl
        | none =>
            simp only [except_pure_eq_ok, Except.ok.injEq] at h
            subst h; intro e he; cases he
      · simp [hfp] at h
        subst h; intro e he; cases he
  | header =>
      unfold ruleStep at h
      rcases except_bind_eq_ok.mp h with ⟨ro, _, h⟩
      cases ro with
      | some r =>
          rcases headerBody_shape h with rfl | ⟨p, ht, rfl⟩
          · intro e he; cases he
          · intro e he
            simp only [List.mem_singleton] at he
            subst he
            refine ⟨ht, ?_, ?_⟩
            · intro hk; cases hk
            · intro _ _; rfl
      | none =>
          simp only [except_pure_eq_ok, Except.ok.injEq] at h
          subst h; intro e he; cases he
  | dividers =>
      unfold ruleStep at h
      rcases except_bind_eq_ok.mp h with ⟨ro, _, h⟩
      cases ro with
      | some r =>
          rcases dividersBody_shape h with rfl | ⟨p, q, ht, hq, rfl⟩
          · intro e he; cases he
          · intro e he
            simp only [List.mem_singleton] at he
            subst he
            refine ⟨ht, fun _ => hq, ?_⟩
            intro hk; exact absurd rfl hk
      | none =>
          simp only [except_pure_eq_ok, Except.ok.injEq] at h
          subst h; intro e he; cases he
  | shipper =>
      unfold ruleStep at h
      rcases except_bind_eq_ok.mp h with ⟨ro, _, h⟩
      cases ro with
      | some r =>
          rcases shipperBody_shape h with rfl | ⟨p, ht, rfl⟩
          · intro e he; cases he
          · intro e he
            simp only [List.mem_singleton] at he
            subst he
            refine ⟨ht, ?_, ?_⟩
            · intro hk; cases hk
            · intro _ _; rfl
      | none =>
          simp only [except_pure_eq_ok, Except.ok.injEq] at h
          subst h; intro e he; cases he
  | assembly_touches =>
      unfold ruleStep at h
      rcases except_bind_eq_ok.mp h with ⟨ro, _, h⟩
      cases ro with
      | some r =>
          rcases assemblyBody_shape h with rfl | ⟨p, q, ht, rfl⟩
          · intro e he; cases he
          · intro e he
            simp only [List.mem_singleton] at he
            subst he
            refine ⟨ht, ?_, ?_⟩
            · intro hk; cases hk
            · intro _ hk; exact absurd rfl hk
      | none =>
          simp only [except_pure_eq_ok, Except.ok.injEq] at h
          subst h; intro e he; cases he
  | printed_inside =>
      unfold ruleStep at h
      rcases except_bind_eq_ok.mp h with ⟨ro, _, h⟩
      cases ro with
      | some r =>
          rcases printedBody_shape h with rfl | ⟨p, ht, rfl⟩
          · intro e he; cases he
          · intro e he
            simp only [List.mem_singleton] at he
            subst he
            refine ⟨ht, ?_, ?_⟩
            · intro hk; cases hk
            · intro _ _; rfl
      | none =>
          simp only [except_pure_eq_ok, Except.ok.injEq] at h
          subst h; intro e he; cases he

/-- Every element of a successful `goResolve` run has a truthy part key. -/
theorem goResolve_truthy :
    ∀ (ks : List RuleName) (rules form fp w d : PyVal) (L : List (PyVal × Int)),
      goResolve ks rules form fp w d = .ok L → ∀ e ∈ L, truthy e.1 = true
  | [], _, _, _, _, _, L, h => by
      simp only [goResolve, Except.ok.injEq] at h
      subst h; intro e he; cases he
  | k :: rest, rules, form, fp, w, d, L, h => by
      unfold goResolve at h
      rcases except_bind_eq_ok.mp h with ⟨s, hs, h⟩
      rcases except_bind_eq_ok.mp h with ⟨t, ht, h⟩
      simp only [except_pure_eq_ok, Except.ok.injEq] at h
      subst h
      intro e he
      rcases List.mem_append.mp he with hm | hm
      · exact (ruleStep_shape k rules form fp w d s hs e hm).1
      · exact goResolve_truthy rest rules form fp w d t ht e hm

/-- C10: every (part, qty) pair resolve produces has a truthy part key; the
footprint-base, header, shipper and printed-inside steps always emit qty 1;
the dividers step always emits qty > 0. -/
theorem c10_resolved_invariants :
    ∀ (catalog form : PyVal) (dims : PyVal × PyVal),
      (∀ L, resolve_parts_per_unit catalog form dims = .ok L →
          ∀ e ∈ L, truthy e.1 = true) ∧
      (∀ (k : RuleName) (l : List (PyVal × Int)),
          ruleContribution k catalog form dims = .ok l →
          ∀ e ∈ l, truthy e.1 = true ∧ (k = .dividers → 0 < e.2) ∧
            (k ≠ .dividers → k ≠ .assembly_touches → e.2 = 1)) := by
  intro catalog form dims
  constructor
  · intro L h
    unfold resolve_parts_per_unit at h
    rcases except_bind_eq_ok.mp h with ⟨rv, _, h⟩
    rcases except_bind_eq_ok.mp h with ⟨fp, _, h⟩
    exact goResolve_truthy ruleOrder _ form fp dims.1 dims.2 L h
  · intro k l h
    unfold ruleContribution at h
    rcases except_bind_eq_ok.mp h with ⟨rv, _, h⟩
    rcases except_bind_eq_ok.mp h with ⟨fp, _, h⟩
    exact ruleStep_shape k _ form fp dims.1 dims.2 l h

/-- The catalog of the C10 witness: a footprint-base rule only. -/
def c10catalog : PyVal :=
  pyDict [("rules", pyDict [("resolve_footprint_base",
    pyDict [("map", pyDict [("fp-24", .str "part-base-24")])])])]

/-- C10 witness: the theorem applied where the footprint-base rule fires —
the emitted entry has a truthy part key and qty exactly 1. -/
theorem c10_resolved_invariants_witness :
    truthy (PyVal.str "part-base-24") = true ∧ (1 : Int) = 1 := by
  have h := (c10_resolved_invariants c10catalog
      (pyDict [("footprint", .str "fp-24")]) (.none, .none)).2 .footprint_base
      [(.str "part-base-24", 1)] rfl (.str "part-base-24", 1) (by simp)
  exact ⟨h.1, h.2.2 (by decide) (by decide)⟩

/-! ## Claim C6 — rule independence -/

/-- Remove rule `kk` inside a rules value (dicts lose every `kk` entry,
non-dicts are unchanged). -/
def eraseInVal (v : PyVal) (kk : String) : PyVal :=
  match v with
  | .dict kvs => .dict (kvs.erase kk)
  | w => w

/-- Map the `"rules"` entry of a catalog dict through rule removal. -/
def removeRuleDict (kk : String) : PyDict → PyDict
  | .nil => .nil
  | .cons l v r =>
      .cons l (if l == "rules" then eraseInVal v kk else v) (removeRuleDict kk r)

/-- The test-harness operation of the claim: the catalog with rule `kk`
deleted from `catalog.rules`. -/
def removeRule (cat : PyVal) (kk : String) : PyVal :=
  match cat with
  | .dict kvs => .dict (removeRuleDict kk kvs)
  | v => v

theorem find?_erase_ne :
    ∀ (kvs : PyDict) (kk key : String), key ≠ kk →
      (kvs.erase kk).find? key = kvs.find? key
  | .nil, _, _, _ => rfl
  | .cons l v r, kk, key, h => by
      have ih := find?_erase_ne r kk key h
      by_cases hl : l = kk
      · subst hl
        have hkl : (l == key) = false := by
          by_cases hx : l = key
          · exact absurd hx.symm h
          · simp [hx]
        simp [PyDict.erase, PyDict.find?, ih, hkl]
      · by_cases hk2 : l = key
        · subst hk2
          simp [PyDict.erase, PyDict.find?, hl, ih]
        · simp [PyDict.erase, PyDict.find?, hl, hk2, ih]

theorem find?_erase_self :
    ∀ (kvs : PyDict) (kk : String), (kvs.erase kk).find? kk = Option.none
  | .nil, _ => rfl
  | .cons l v r, kk => by
      have ih := find?_erase_self r kk
      by_cases hl : l = kk
      · subst hl; simp [PyDict.erase, ih]
      · simp [PyDict.erase, PyDict.find?, hl, ih]

theorem getRule_erase_ne (rules : PyVal) (kk key : String) (h : key ≠ kk) :
    getRule (eraseInVal rules kk) key = getRule rules key := by
  cases rules with
  | dict kvs =>
      simp [getRule, eraseInVal, pyInStr, PyDict.hasKey, pySubscr,
        find?_erase_ne kvs kk key h]
  | none => rfl
  | bool b => rfl
  | int n => rfl
  | float q => rfl
  | str s => rfl
  | list xs => rfl

theorem getRule_ok_some_dict {rules : PyVal} {key : String} {r : PyVal}
    (h : getRule rules key = .ok (some r)) : ∃ kvs, rules = .dict kvs := by
  cases rules with
  | dict kvs => exact ⟨kvs, rfl⟩
  | none => simp [getRule, pyInStr] at h
  | bool b => simp [getRule, pyInStr] at h
  | int n => simp [getRule, pyInStr] at h
  | float q => simp [getRule, pyInStr] at h
  | str s =>
      unfold getRule pyInStr at h
      by_cases hc : chSub key.data s.data = true <;> simp [hc, pySubscr] at h
  | list xs =>
      unfold getRule pyInStr at h
      by_cases hc : pyElemL (.str key) xs = true <;> simp [hc, pySubscr] at h

theorem getRule_erase_self {rules : PyVal} {key : String} {x : Option PyVal}
    (h : getRule rules key = .ok x) :
    getRule (eraseInVal rules key) key = .ok Option.none := by
  cases rules with
  | dict kvs =>
      simp [getRule, eraseInVal, pyInStr, PyDict.hasKey, find?_erase_self kvs key]
  | none => simp [getRule, pyInStr] at h
  | bool b => simp [getRule, pyInStr] at h
  | int n => simp [getRule, pyInStr] at h
  | float q => simp [getRule, pyInStr] at h
  | str s =>
      unfold getRule pyInStr at h ⊢
      by_cases hc : chSub key.data s.data = true
      · simp [hc, pySubscr] at h
      · simp [eraseInVal, String.toList, hc]
  | list xs =>
      unfold getRule pyInStr at h ⊢
      by_cases hc : pyElemL (.str key) xs = true
      · simp [hc, pySubscr] at h
      · simp [eraseInVal, hc]

theorem ruleKey_ne_of_ne (j k : RuleName) (h : j ≠ k) : ruleKey j ≠ ruleKey k := by
  cases j <;> cases k <;> simp_all [ruleKey]

theorem ruleStep_erase_ne (j : RuleName) (kk : String) (h : ruleKey j ≠ kk)
    (rules form fp w d : PyVal) :
    ruleStep j (eraseInVal rules kk) form fp w d = ruleStep j rules form fp w d := by
  cases j <;> simp only [ruleKey] at h <;> unfold ruleStep <;>
    rw [getRule_erase_ne rules kk _ h]

theorem ruleStep_erase_self (k : RuleName) (rules form fp w d : PyVal)
    (l : List (PyVal × Int)) (h : ruleStep k rules form fp w d = .ok l) :
    ruleStep k (eraseInVal rules (ruleKey k)) form fp w d = .ok [] := by
  cases k with
  | footprint_base =>
      simp only [ruleStep, ruleKey] at h ⊢
      by_cases hfp : truthy fp = true
      · simp only [hfp, if_true] at h ⊢
        rcases except_bind_eq_ok.mp h with ⟨ro, hro, _⟩
        rw [getRule_erase_self hro]
        rfl
      · simp [hfp]
  | header =>
      simp only [ruleStep, ruleKey] at h ⊢
      rcases except_bind_eq_ok.mp h with ⟨ro, hro, _⟩
      rw [getRule_erase_self hro]
      rfl
  | dividers =>
      simp only [ruleStep, ruleKey] at h ⊢
      rcases except_bind_eq_ok.mp h with ⟨ro, hro, _⟩
      rw [getRule_erase_self hro]
      rfl
  | shipper =>
      simp only [ruleStep, ruleKey] at h ⊢
      rcases except_bind_eq_ok.mp h with ⟨ro, hro, _⟩
      rw [getRule_erase_self hro]
      rfl
  | assembly_touches =>
      simp only [ruleStep, ruleKey] at h ⊢
      rcases except_bind_eq_ok.mp h with ⟨ro, hro, _⟩
      rw [getRule_erase_self hro]
      rfl
  | printed_inside =>
      simp only [ruleStep, ruleKey] at h ⊢
      rcases except_bind_eq_ok.mp h with ⟨ro, hro, _⟩
      rw [getRule_erase_self hro]
      rfl

theorem goResolve_erase_notmem (kk : String) :
    ∀ (ks : List RuleName) (rules form fp w d : PyVal),
      (∀ j ∈ ks, ruleKey j ≠ kk) →
      goResolve ks (eraseInVal rules kk) form fp w d = goResolve ks rules form fp w d
  | [], _, _, _, _, _, _ => rfl
  | j :: rest, rules, form, fp, w, d, h => by
      unfold goResolve
      rw [ruleStep_erase_ne j kk (h j (by simp)) rules form fp w d,
        goResolve_erase_notmem kk rest rules form fp w d (fun u hu => h u (by simp [hu]))]

theorem except_bind_ok_right {α : Type} (e : Except String α) :
    (e >>= fun a => Except.ok a) = e := by
  cases e <;> rfl

theorem goResolve_append :
    ∀ (as bs : List RuleName) (rules form fp w d : PyVal),
      goResolve (as ++ bs) rules form fp w d =
        (do
          let A ← goResolve as rules form fp w d
          let B ← goResolve bs rules form fp w d
          pure (A ++ B))
  | [], bs, rules, form, fp, w, d => by
      simp [goResolve, except_bind_ok_right]
  | j :: rest, bs, rules, form, fp, w, d => by
      have hcons : ∀ (ks : List RuleName),
          goResolve (j :: ks) rules form fp w d =
            (do
              let s ← ruleStep j rules form fp w d
              let t ← goResolve ks rules form fp w d
              pure (s ++ t)) := fun ks => rfl
      rw [List.cons_append, hcons, hcons, goResolve_append rest bs rules form fp w d]
      cases ruleStep j rules form fp w d with
      | error e => rfl
      | ok s =>
          simp only [except_bind_ok_left]
          cases goResolve rest rules form fp w d with
          | error e => rfl
          | ok A =>
              simp only [except_bind_ok_left]
              cases goResolve bs rules form fp w d with
              | error e => rfl
              | ok B => simp [List.append_assoc]

theorem go_decomp_remove (rules form fp w d : PyVal) (k : RuleName)
    (as bs : List RuleName) (has : ∀ j ∈ as, ruleKey j ≠ ruleKey k)
    (hbs : ∀ j ∈ bs, ruleKey j ≠ ruleKey k)
    (L Lk : List (PyVal × Int))
    (hres : goResolve (as ++ k :: bs) rules form fp w d = .ok L)
    (hk : ruleStep k rules form fp w d = .ok Lk) :
    ∃ pre post, L = pre ++ Lk ++ post ∧
      goResolve (as ++ k :: bs) (eraseInVal rules (ruleKey k)) form fp w d =
        .ok (pre ++ post) := by
  rw [goResolve_append] at hres
  rcases except_bind_eq_ok.mp hres with ⟨A, hA, hres⟩
  rcases except_bind_eq_ok.mp hres with ⟨B, hB, hres⟩
  simp only [except_pure_eq_ok, Except.ok.injEq] at hres
  unfold goResolve at hB
  rcases except_bind_eq_ok.mp hB with ⟨S, hS, hB⟩
  rcases except_bind_eq_ok.mp hB with ⟨T, hT, hB⟩
  simp only [except_pure_eq_ok, Except.ok.injEq] at hB
  have hSLk : S = Lk := by
    rw [hS] at hk
    injection hk
  refine ⟨A, T, ?_, ?_⟩
  · rw [← hres, ← hB, hSLk, List.append_assoc]
  · rw [goResolve_append]
    have h1 : goResolve as (eraseInVal rules (ruleKey k)) form fp w d = .ok A := by
      rw [goResolve_erase_notmem (ruleKey k) as rules form fp w d has]
      exact hA
    have h2 : goResolve (k :: bs) (eraseInVal rules (ruleKey k)) form fp w d = .ok T := by
      unfold goResolve
      rw [ruleStep_erase_self k rules form fp w d S hS]
      simp only [except_bind_ok_left]
      rw [goResolve_erase_notmem (ruleKey k) bs rules form fp w d hbs]
      rw [hT]
      simp
    rw [h1, h2]
    rfl

theorem removeRuleDict_find_rules (kk : String) :
    ∀ (kvs : PyDict),
      (removeRuleDict kk kvs).find? "rules" =
        (kvs.find? "rules").map (fun v => eraseInVal v kk)
  | .nil => rfl
  | .cons l v r => by
      have ih := removeRuleDict_find_rules kk r
      by_cases hl : l = "rules"
      · subst hl; simp [removeRuleDict, PyDict.find?]
      · simp [removeRuleDict, PyDict.find?, hl, ih]

theorem pyOr_erase (v : PyVal) (kk : String) :
    pyOr (eraseInVal v kk) (pyDict []) = eraseInVal (pyOr v (pyDict [])) kk := by
  cases v with
  | dict kvs =>
      cases kvs with
      | nil => rfl
      | cons l w r =>
          cases h : (PyDict.cons l w r).erase kk <;>
            simp [pyOr, truthy, eraseInVal, h, pyDict, PyDict.ofList]
  | none => rfl
  | bool b => cases b <;> rfl
  | int n =>
      by_cases hn : n = 0 <;>
        simp [pyOr, truthy, eraseInVal, hn, pyDict, PyDict.ofList, PyDict.erase]
  | float q =>
      by_cases hq : q = 0 <;>
        simp [pyOr, truthy, eraseInVal, hq, pyDict, PyDict.ofList, PyDict.erase]
  | str s =>
      by_cases hs : s = "" <;>
        simp [pyOr, truthy, eraseInVal, hs, pyDict, PyDict.ofList, PyDict.erase]
  | list xs => cases xs <;> rfl

theorem resolve_remove_general (kvs : PyDict) (form : PyVal) (dims : PyVal × PyVal)
    (k : RuleName) (as bs : List RuleName)
    (horder : ruleOrder = as ++ k :: bs)
    (has : ∀ j ∈ as, ruleKey j ≠ ruleKey k) (hbs : ∀ j ∈ bs, ruleKey j ≠ ruleKey k)
    (L Lk : List (PyVal × Int))
    (hres : resolve_parts_per_unit (.dict kvs) form dims = .ok L)
    (hk : ruleContribution k (.dict kvs) form dims = .ok Lk) :
    ∃ pre post, L = pre ++ Lk ++ post ∧
      resolve_parts_per_unit (removeRule (.dict kvs) (ruleKey k)) form dims =
        .ok (pre ++ post) := by
  unfold resolve_parts_per_unit at hres
  unfold ruleContribution at hk
  rcases except_bind_eq_ok.mp hres with ⟨rv, hrv, hres⟩
  rcases except_bind_eq_ok.mp hk with ⟨rv2, hrv2, hk⟩
  rw [hrv] at hrv2
  injection hrv2 with he
  subst he
  rcases except_bind_eq_ok.mp hres with ⟨fpv, hfp, hres⟩
  rcases except_bind_eq_ok.mp hk with ⟨fpv2, hfp2, hk⟩
  rw [hfp] at hfp2
  injection hfp2 with he2
  subst he2
  rw [horder] at hres
  obtain ⟨pre, post, hL, hgo⟩ :=
    go_decomp_remove (pyOr rv (pyDict [])) form fpv dims.1 dims.2 k as bs has hbs
      L Lk hres hk
  refine ⟨pre, post, hL, ?_⟩
  have hrvv : (kvs.find? "rules").getD (pyDict []) = rv := by
    simpa [pyGet] using hrv
  have hrw : pyOr (((kvs.find? "rules").map (fun v => eraseInVal v (ruleKey k))).getD
      (pyDict [])) (pyDict []) = eraseInVal (pyOr rv (pyDict [])) (ruleKey k) := by
    rw [← hrvv]
    cases kvs.find? "rules" with
    | none => simp [pyOr, truthy, eraseInVal, pyDict, PyDict.ofList, PyDict.erase]
    | some v => simpa using pyOr_erase v (ruleKey k)
  unfold resolve_parts_per_unit removeRule
  simp only [pyGet_dict, removeRuleDict_find_rules, except_bind_ok_left]
  rw [hrw, hfp]
  simp only [except_bind_ok_left]
  rw [← horder] at hgo
  exact hgo

/-- C6: whenever resolution succeeds and rule `k`'s step contributes `Lk`,
the full output splits as `pre ++ Lk ++ post`, and resolving against the
catalog with rule `k` deleted from `catalog.rules` yields exactly
`pre ++ post` — every other rule's contributions and their relative order are
untouched. -/
theorem c6_rule_independence :
    ∀ (catalog form : PyVal) (dims : PyVal × PyVal) (k : RuleName)
      (L Lk : List (PyVal × Int)),
      resolve_parts_per_unit catalog form dims = .ok L →
      ruleContribution k catalog form dims = .ok Lk →
      ∃ pre post, L = pre ++ Lk ++ post ∧
        resolve_parts_per_unit (removeRule catalog (ruleKey k)) form dims =
          .ok (pre ++ post) := by
  intro catalog form dims k L Lk hres hk
  obtain ⟨kvs, rfl⟩ : ∃ kvs, catalog = .dict kvs := by
    unfold resolve_parts_per_unit at hres
    rcases except_bind_eq_ok.mp hres with ⟨rv, hrv, _⟩
    cases catalog <;> simp [pyGet] at hrv
    exact ⟨_, rfl⟩
  cases k with
  | footprint_base =>
      exact resolve_remove_general kvs form dims .footprint_base []
        [.header, .dividers, .shipper, .assembly_touches, .printed_inside]
        rfl (by decide) (by decide) L Lk hres hk
  | header =>
      exact resolve_remove_general kvs form dims .header [.footprint_base]
        [.dividers, .shipper, .assembly_touches, .printed_inside]
        rfl (by decide) (by decide) L Lk hres hk
  | dividers =>
      exact resolve_remove_general kvs form dims .dividers
        [.footprint_base, .header] [.shipper, .assembly_touches, .printed_inside]
        rfl (by decide) (by decide) L Lk hres hk
  | shipper =>
      exact resolve_remove_general kvs form dims .shipper
        [.footprint_base, .header, .dividers] [.assembly_touches, .printed_inside]
        rfl (by decide) (by decide) L Lk hres hk
  | assembly_touches =>
      exact resolve_remove_general kvs form dims .assembly_touches
        [.footprint_base, .header, .dividers, .shipper] [.printed_inside]
        rfl (by decide) (by decide) L Lk hres hk
  | printed_inside =>
      exact resolve_remove_general kvs form dims .printed_inside
        [.footprint_base, .header, .dividers, .shipper, .assembly_touches] []
        rfl (by decide) (by decide) L Lk hres hk

/-- The C6 witness catalog: a footprint-base rule and a shipper rule that
both fire. -/
def c6catalog : PyVal :=
  pyDict [("rules", pyDict
    [("resolve_footprint_base", pyDict [("map", pyDict [("fp-24", .str "part-base-24")])]),
     ("resolve_shipper", pyDict
       [("when_control", .str "ship"), ("when_value", .str "ship-yes"),
        ("map", pyDict [("fp-24", .str "shipper-24")]),
        ("else", .str "shipper-generic")])])]

/-- The C6 witness form. -/
def c6form : PyVal := pyDict [("footprint", .str "fp-24"), ("ship", .str "ship-yes")]

/-- C6 witness: the theorem applied at the concrete catalog — removing the
shipper rule deletes exactly its line. -/
theorem c6_rule_independence_witness :
    ∃ pre post,
      [((PyVal.str "part-base-24"), (1 : Int)), (PyVal.str "shipper-24", 1)] =
        pre ++ [(PyVal.str "shipper-24", (1 : Int))] ++ post ∧
      resolve_parts_per_unit (removeRule c6catalog (ruleKey .shipper)) c6form
          (.none, .none) = .ok (pre ++ post) := by
  exact c6_rule_independence c6catalog c6form (.none, .none) .shipper
    [(.str "part-base-24", 1), (.str "shipper-24", 1)] [(.str "shipper-24", 1)]
    (by simp [resolve_parts_per_unit, goResolve, ruleStep, getRule, fpBaseBody,
      headerBody, shipperBody, pyGet, pyGetKey, pyOr, truthy, pyInStr, PyDict.hasKey,
      PyDict.find?, pySubscr, pyEq, pyDict, PyDict.ofList, ruleOrder, c6catalog, c6form])
    (by simp [ruleContribution, ruleStep, getRule, shipperBody, pyGet, pyGetKey, pyOr,
      truthy, pyInStr, PyDict.hasKey, PyDict.find?, pySubscr, pyEq, pyDict,
      PyDict.ofList, c6catalog, c6form])

/-! ## Claim C5 — required-field gating -/

/-- Mark one control as required (the test transformation of the claim);
non-dict controls are left unchanged. -/
def setRequired (c : PyVal) : PyVal :=
  match c with
  | .dict kvs => .dict (kvs.set "required" (.bool true))
  | v => v

/-- Transform the value of the `"controls"` entry of a catalog dict. -/
def ctrlListMap (f : PyVal → PyVal) (v : PyVal) : PyVal :=
  match v with
  | .list xs => .list (xs.map f)
  | w => w

/-- Map the catalog's `"controls"` entry through a control transformation. -/
def mapControlsDict (f : PyVal → PyVal) : PyDict → PyDict
  | .nil => .nil
  | .cons k v r =>
      .cons k (if k == "controls" then ctrlListMap f v else v) (mapControlsDict f r)

/-- The catalog with every declared control marked `required: true`. -/
def markAllRequired (cat : PyVal) : PyVal :=
  match cat with
  | .dict kvs => .dict (mapControlsDict setRequired kvs)
  | v => v

theorem find?_set_ne :
    ∀ (kvs : PyDict) (k key : String) (v : PyVal), key ≠ k →
      (kvs.set k v).find? key = kvs.find? key
  | .nil, k, key, v, h => by
      have : (k == key) = false := by
        by_cases hx : k = key
        · exact absurd hx.symm h
        · simp [hx]
      simp [PyDict.set, PyDict.find?, this]
  | .cons l w r, k, key, v, h => by
      have ih := find?_set_ne r k key v h
      by_cases hl : l = k
      · subst hl
        have : (l == key) = false := by
          by_cases hx : l = key
          · exact absurd hx.symm h
          · simp [hx]
        simp [PyDict.set, PyDict.find?, this]
      · by_cases hk2 : l = key
        · subst hk2
          simp [PyDict.set, PyDict.find?, hl, ih]
        · simp [PyDict.set, PyDict.find?, hl, hk2, ih]

theorem pyGet_setRequired (c : PyVal) (key : String) (d : PyVal) (h : key ≠ "required") :
    pyGet (setRequired c) key d = pyGet c key d := by
  cases c with
  | dict kvs => simp [setRequired, pyGet, find?_set_ne kvs "required" key _ h]
  | none => rfl
  | bool b => rfl
  | int n => rfl
  | float q => rfl
  | str s => rfl
  | list xs => rfl

theorem walkOne_setRequired (widget : String → PyVal) (form c : PyVal) :
    walkOne widget form (setRequired c) = walkOne widget form c := by
  have h1 := pyGet_setRequired c "id" .none (by decide)
  have h2 := pyGet_setRequired c "type" .none (by decide)
  have h3 := pyGet_setRequired c "label" .none (by decide)
  have h4 := pyGet_setRequired c "options" (pyList []) (by decide)
  have h5 := pyGet_setRequired c "min" (.int 0) (by decide)
  simp only [walkOne, h1, h2, h3, h4, h5]

theorem walkLoop_setRequired (widget : String → PyVal) :
    ∀ (cs : List PyVal) (form : PyVal),
      walkLoop widget (cs.map setRequired) form = walkLoop widget cs form
  | [], _ => rfl
  | c :: rest, form => by
      simp only [List.map, walkLoop, walkOne_setRequired]
      cases walkOne widget form c with
      | error e => rfl
      | ok f2 => simp only [except_bind_ok_left, walkLoop_setRequired widget rest f2]

theorem mapControlsDict_find_ne (f : PyVal → PyVal) (key : String) (h : key ≠ "controls") :
    ∀ (kvs : PyDict), (mapControlsDict f kvs).find? key = kvs.find? key
  | .nil => rfl
  | .cons l v r => by
      have ih := mapControlsDict_find_ne f key h r
      by_cases hl : l = "controls"
      · subst hl
        have hck : (("controls" : String) == key) = false := by
          by_cases hx : "controls" = key
          · exact absurd hx.symm h
          · simp [hx]
        simp [mapControlsDict, PyDict.find?, hck, ih]
      · simp [mapControlsDict, PyDict.find?, hl, ih]

theorem mapControlsDict_find_controls (f : PyVal → PyVal) :
    ∀ (kvs : PyDict),
      (mapControlsDict f kvs).find? "controls" =
        (kvs.find? "controls").map (ctrlListMap f)
  | .nil => rfl
  | .cons l v r => by
      have ih := mapControlsDict_find_controls f r
      by_cases hl : l = "controls"
      · subst hl; simp [mapControlsDict, PyDict.find?]
      · simp [mapControlsDict, PyDict.find?, hl, ih]

theorem PyList.toList_map (f : PyVal → PyVal) :
    ∀ (xs : PyList), (xs.map f).toList = xs.toList.map f
  | .nil => rfl
  | .cons x rest => by
      simp [PyList.map, PyList.toList, PyList.toList_map f rest]

theorem walkControls_markAllRequired (catalog form : PyVal) (widget : String → PyVal) :
    walkControls (markAllRequired catalog) form widget = walkControls catalog form widget := by
  cases catalog with
  | dict kvs =>
      simp only [walkControls, markAllRequired, pyGet_dict,
        mapControlsDict_find_controls, except_bind_ok_left]
      cases hc : kvs.find? "controls" with
      | none => simp
      | some v =>
          cases v with
          | list xs =>
              simp [ctrlListMap, pyIter_list, PyList.toList_map, walkLoop_setRequired]
          | none => simp [ctrlListMap]
          | bool b => simp [ctrlListMap]
          | int n => simp [ctrlListMap]
          | float q => simp [ctrlListMap]
          | str s => simp [ctrlListMap]
          | dict kvs2 => simp [ctrlListMap]
  | none => rfl
  | bool b => rfl
  | int n => rfl
  | float q => rfl
  | str s => rfl
  | list xs => rfl

theorem findControlLoop_map_setRequired (cid : String) :
    ∀ (cs : List PyVal),
      findControlLoop cid (cs.map setRequired) =
        Except.map setRequired (findControlLoop cid cs)
  | [] => rfl
  | c :: cs => by
      have ih := findControlLoop_map_setRequired cid cs
      have hid := pyGet_setRequired c "id" .none (by decide)
      simp only [List.map, findControlLoop, hid]
      cases hg : pyGet c "id" .none with
      | error e => rfl
      | ok g =>
          simp only [except_bind_ok_left]
          by_cases hq : pyEq g (.str cid) = true
          · simp [hq, Except.map]
          · simp [hq, ih]

theorem truthy_setRequired_found (cid : String) :
    ∀ (cs : List PyVal) (v : PyVal), findControlLoop cid cs = .ok v →
      truthy (setRequired v) = truthy v
  | [], v, h => by
      simp [findControlLoop] at h
      subst h; rfl
  | c :: cs, v, h => by
      have ih := truthy_setRequired_found cid cs
      simp only [findControlLoop] at h
      cases hg : pyGet c "id" .none with
      | error e => rw [hg] at h; cases h
      | ok g =>
          rw [hg] at h
          simp only [except_bind_ok_left] at h
          by_cases hq : pyEq g (.str cid) = true
          · simp only [hq, if_true] at h
            have hc : c = v := by simpa using h
            subst hc
            cases c with
            | dict kvs =>
                cases kvs with
                | nil =>
                    have hgn : PyVal.none = g := by
                      simpa [pyGet, PyDict.find?] using hg
                    subst hgn
                    simp [pyEq] at hq
                | cons k w r =>
                    by_cases hk : (k == "required") = true
                    · simp [setRequired, PyDict.set, hk, truthy]
                    · simp [setRequired, PyDict.set, hk, truthy]
            | none => simp [pyGet] at hg
            | bool b => simp [pyGet] at hg
            | int n => simp [pyGet] at hg
            | float q => simp [pyGet] at hg
            | str s => simp [pyGet] at hg
            | list xs => simp [pyGet] at hg
          · simp only [hq, if_false] at h
            exact ih v h

theorem display_find_control_markAll (cat : PyVal) (cid : String) :
    display_find_control (markAllRequired cat) cid =
      Except.map setRequired (display_find_control cat cid) := by
  cases cat with
  | dict kvs =>
      simp only [display_find_control, markAllRequired, pyGet_dict,
        mapControlsDict_find_controls, except_bind_ok_left]
      cases hc : kvs.find? "controls" with
      | none =>
          simp [pyIter, findControlLoop, Except.map, setRequired, pyList,
            PyList.ofList, PyList.toList]
      | some v =>
          cases v with
          | list xs =>
              simp [ctrlListMap, pyIter_list, PyList.toList_map,
                findControlLoop_map_setRequired]
          | dict kvs2 =>
              cases kvs2 with
              | nil =>
                  simp [ctrlListMap, pyIter, PyDict.keyList, findControlLoop,
                    Except.map, setRequired]
              | cons k w r =>
                  simp [ctrlListMap, pyIter, PyDict.keyList, findControlLoop, pyGet, Except.map]
          | str s =>
              cases s with
              | mk data =>
                  cases data with
                  | nil => simp [ctrlListMap, pyIter, findControlLoop, Except.map, setRequired]
                  | cons a as => simp [ctrlListMap, pyIter, findControlLoop, pyGet, Except.map]
          | none => simp [ctrlListMap, pyIter, Except.map]
          | bool b => simp [ctrlListMap, pyIter, Except.map]
          | int n => simp [ctrlListMap, pyIter, Except.map]
          | float q => simp [ctrlListMap, pyIter, Except.map]
  | none => simp [display_find_control, markAllRequired, pyGet, Except.map]
  | bool b => simp [display_find_control, markAllRequired, pyGet, Except.map]
  | int n => simp [display_find_control, markAllRequired, pyGet, Except.map]
  | float q => simp [display_find_control, markAllRequired, pyGet, Except.map]
  | str s => simp [display_find_control, markAllRequired, pyGet, Except.map]
  | list xs => simp [display_find_control, markAllRequired, pyGet, Except.map]

theorem display_footprint_dims_markAll (cat fk : PyVal) :
    display_footprint_dims (markAllRequired cat) fk = display_footprint_dims cat fk := by
  simp only [display_footprint_dims, display_find_control_markAll]
  cases hf : display_find_control cat "footprint" with
  | error e => simp [Except.map]
  | ok v =>
      simp only [Except.map, except_bind_ok_left]
      simp only [display_find_control] at hf
      rcases except_bind_eq_ok.mp hf with ⟨g, hg, hf2⟩
      rcases except_bind_eq_ok.mp hf2 with ⟨cs, hcs, hloop⟩
      have hv := truthy_setRequired_found "footprint" cs v hloop
      rw [hv]
      by_cases ht : truthy v = true
      · simp only [ht, if_true, pyGet_setRequired v "options" _ (by decide)]
      · simp [ht]

theorem display_resolve_markAll (cat form : PyVal) :
    display_resolve (markAllRequired cat) form = display_resolve cat form := by
  cases cat with
  | dict kvs =>
      have hr : pyGet (markAllRequired (.dict kvs)) "rules" (pyDict []) =
          pyGet (.dict kvs) "rules" (pyDict []) := by
        simp [markAllRequired, pyGet_dict, mapControlsDict_find_ne _ "rules" (by decide)]
      simp only [display_resolve, hr, display_footprint_dims_markAll]
  | none => rfl
  | bool b => rfl
  | int n => rfl
  | float q => rfl
  | str s => rfl
  | list xs => rfl

theorem parts_value_markAll (cat pk : PyVal) :
    parts_value (markAllRequired cat) pk = parts_value cat pk := by
  cases cat with
  | dict kvs =>
      have hp : pyGet (markAllRequired (.dict kvs)) "parts" (pyDict []) =
          pyGet (.dict kvs) "parts" (pyDict []) := by
        simp [markAllRequired, pyGet_dict, mapControlsDict_find_ne _ "parts" (by decide)]
      simp only [parts_value, partsValueAttempt, hp]
  | none => rfl
  | bool b => rfl
  | int n => rfl
  | float q => rfl
  | str s => rfl
  | list xs => rfl

theorem display_totals_markAll (cat form : PyVal) (resolved : List (PyVal × Int))
    (sel : PyVal) :
    display_totals (markAllRequired cat) form resolved sel =
      display_totals cat form resolved sel := by
  cases cat with
  | dict kvs =>
      have hp : pyGet (markAllRequired (.dict kvs)) "policy" (pyDict []) =
          pyGet (.dict kvs) "policy" (pyDict []) := by
        simp [markAllRequired, pyGet_dict, mapControlsDict_find_ne _ "policy" (by decide)]
      simp only [display_totals, hp, parts_value_markAll]
  | none => rfl
  | bool b => rfl
  | int n => rfl
  | float q => rfl
  | str s => rfl
  | list xs => rfl

/-- **C5.** The spec claims `render_pdq_form` enforces `required` controls
and that totals appear only once every required control is answered.  In the
source (`src/pages/Display.py` lines 311-472) nothing reads the `required`
entry of any control: marking every declared control `required: true` changes
no output of a recomputation, for any catalog, prior form state, widget
state and grid selection.  Resolution and totals run unconditionally. -/
theorem c5_required_gating (catalog form0 : PyVal) (widget : String → PyVal)
    (sel : PyVal) :
    render_pdq_form (markAllRequired catalog) form0 widget sel =
      render_pdq_form catalog form0 widget sel := by
  simp only [render_pdq_form, walkControls_markAllRequired, display_resolve_markAll,
    display_totals_markAll]

/-- A catalog declaring two controls, both `required: true`: a `single`
colorway choice and a `number` quantity. -/
def c5catalog : PyVal :=
  pyDict [("controls", pyList [
    pyDict [("id", .str "colorway"), ("type", .str "single"), ("label", .str "Colorway"),
            ("required", .bool true),
            ("options", pyList [pyDict [("key", .str "red"), ("label", .str "Red")]])],
    pyDict [("id", .str "quantity"), ("type", .str "number"), ("label", .str "Quantity"),
            ("required", .bool true), ("min", .int 1)]])]

/-- Widget state for the C5 scenario: the user has the default option and
quantity 3 in the widgets. -/
def c5widget : String → PyVal := fun k =>
  if k = "pdq__colorway" then .str "Red"
  else if k = "pdq__quantity" then .int 3
  else .none

/-- C5 counterexample: starting from an empty form (no required control
answered yet), a recomputation still fills every control from the widgets and
computes full totals — nothing is gated on `required`. -/
theorem c5_counterexample :
    render_pdq_form c5catalog (pyDict []) c5widget .none =
      .ok { form := pyDict [("colorway", .str "red"), ("quantity", .int 3)],
            resolved := [],
            totals := { qty := 3, unit_factor := 1, base_markup := 7/20,
                        grid_factor := 1, markup_pct := 7/20,
                        per_unit_parts_subtotal := 0, per_unit_after_tier := 0,
                        program_base := 0, final_total := 0 } } := by
  simp [render_pdq_form, walkControls, c5catalog, c5widget, pyGet, pyGetKey,
    PyDict.find?, pyList, pyDict, PyList.ofList, PyList.toList, PyDict.ofList,
    pyIter, walkLoop, walkOne, pyStr, pyEq, pyInDict, PyDict.hasKey, pySubscrKey,
    pyListElem, pyListIndex, pyListAt, pySetItem, PyDict.set, pyPop, PyDict.erase,
    pyMax, pyGt, pyNum?, pyInt, pyFloat, truthy, pyOr,
    List.mapM.loop, List.mapM_cons, List.mapM_nil, display_resolve, pyInStr, display_totals,
    display_uf_loop, display_grid_factor, parts_value, partsValueAttempt,
    show "pdq__" ++ "colorway" = "pdq__colorway" from rfl,
    show "pdq__" ++ "quantity" = "pdq__quantity" from rfl]

/-! ## Claim C9 — determinism / purity -/

/-- One run of the whole pricing pipeline on fixed inputs: the
`resolve_parts_per_unit` resolution from `src/app/pricing.py` (which itself
calls `unit_factor` indirectly through its callers), together with the inline
resolution and totals of `src/pages/Display.py`.  The Python functions read
only their parameters — no module-level mutable state appears in their
bodies — so the embedding is a function of exactly these inputs. -/
def pipelineRun (catalog form : PyVal) (dims : PyVal × PyVal) (sel : PyVal) :
    Except String (List (PyVal × Int)) ×
      Except String (List (PyVal × Int) × DisplayTotals) :=
  (resolve_parts_per_unit catalog form dims,
   do
     let r ← display_resolve catalog form
     let t ← display_totals catalog form r sel
     pure (r, t))

/-- **C9.** For fixed `(catalog, form, matrix_selection)` (and footprint
dims), running parts resolution and totals computation twice yields
identical results: the pipeline is a pure, deterministic function of its
inputs.  In the embedding — faithful to the source, whose functions read
only their arguments and locals — two runs are literally the same value. -/
theorem c9_determinism (catalog form : PyVal) (dims : PyVal × PyVal) (sel : PyVal) :
    pipelineRun catalog form dims sel = pipelineRun catalog form dims sel ∧
      ∀ catalog2 form2 dims2 sel2, catalog = catalog2 → form = form2 →
        dims = dims2 → sel = sel2 →
        pipelineRun catalog form dims sel = pipelineRun catalog2 form2 dims2 sel2 := by
  refine ⟨rfl, ?_⟩
  intro c2 f2 d2 s2 hc hf hd hs
  rw [hc, hf, hd, hs]
